import Mathlib

/-!
Verification development for the network manager and placement engine of
aos_communicationmanager.  The Go sources `networkmanager/networkmanager.go`
(network coordinator) and the launcher's node handler (placement engine) are
shallowly embedded below: maps become association lists with Go-map semantics
(lookup of the first matching key, deletion of a key, in-place update),
in-place mutation becomes explicit state passing, fallible calls return
`Except`, and the external collaborators (storage, node manager, VLAN picker)
become oracle functions bundled in an `Env` record.  The subnet allocator
(IPAM) and the DNS registry live outside the embedded sources and are
modelled from the specification where noted.
-/

deriving instance DecidableEq for Except

/-! ## Association-list encoding of Go maps -/

/-- Go-map lookup: the value of the first entry with the given key. -/
def lookupA [DecidableEq κ] : List (κ × α) → κ → Option α
  | [], _ => none
  | e :: rest, k => if e.1 = k then some e.2 else lookupA rest k

/-- Go-map assignment `m[k] = v`: replace the first entry for `k`, or append. -/
def updateA [DecidableEq κ] : List (κ × α) → κ → α → List (κ × α)
  | [], k, v => [(k, v)]
  | e :: rest, k, v => if e.1 = k then (k, v) :: rest else e :: updateA rest k v

/-- Go-map in-place value modification that leaves an absent key absent. -/
def modifyA [DecidableEq κ] : List (κ × α) → κ → (α → α) → List (κ × α)
  | [], _, _ => []
  | e :: rest, k, f => if e.1 = k then (k, f e.2) :: rest else e :: modifyA rest k f

/-- Go-map deletion `delete(m, k)`. -/
def eraseA [DecidableEq κ] (l : List (κ × α)) (k : κ) : List (κ × α) :=
  l.filter (fun e => e.1 ≠ k)

/-! ## Data model (from `networkmanager.go` and `aostypes`) -/

/-- `aostypes.InstanceIdent`: identity key of an instance. -/
structure InstanceIdent where
  serviceID : String
  subjectID : String
  instanceNum : Nat
deriving DecidableEq, Repr

/-- `networkmanager.FirewallRule`: an exposed-port (ingress) rule. -/
structure FirewallRule where
  protocol : String
  port : String
deriving DecidableEq, Repr

/-- `aostypes.FirewallRule`: a derived egress rule. -/
structure AosFirewallRule where
  dstIP : String
  srcIP : String
  proto : String
  dstPort : String
deriving DecidableEq, Repr

/-- `aostypes.NetworkParameters`: materialised per-instance/per-node record. -/
structure AosNetworkParameters where
  networkID : String
  ip : String
  subnet : String
  vlanID : Nat
  dnsServers : List String
  firewallRules : List AosFirewallRule
deriving DecidableEq, Repr

/-- `networkmanager.InstanceNetworkInfo`. -/
structure InstanceNetworkInfo where
  instanceIdent : InstanceIdent
  networkParameters : AosNetworkParameters
  rules : List FirewallRule
deriving DecidableEq, Repr

/-- `networkmanager.NetworkParametersStorage`: one node's provider binding. -/
structure NetworkParametersStorage where
  networkParameters : AosNetworkParameters
  nodeID : String
deriving DecidableEq, Repr

/-- `networkmanager.NetworkParameters`: the per-instance user policy. -/
structure NetworkParameters where
  hosts : List String
  allowConnections : List String
  exposePorts : List String
deriving DecidableEq, Repr

/-- Error kinds produced by the embedded operations. -/
inductive Err where
  | ruleNotFound
  | malformedPolicy
  | invalidAddress
  | storageFailure
  | transportFailure
  | corruptedState
deriving DecidableEq, Repr

/-! ## Character-level string helpers

The Go code uses `strings.Split` and `net` parsing; they are reimplemented
on `List Char` so that every definition reduces in the kernel. -/

/-- `strings.Split` on a single separator character, over a char list. -/
def splitChar (sep : Char) : List Char → List (List Char)
  | [] => [[]]
  | c :: rest =>
    let r := splitChar sep rest
    if c = sep then [] :: r
    else
      match r with
      | [] => [[c]]
      | g :: gs => (c :: g) :: gs

/-- Decimal digits of a char list, most significant first; `none` on a
non-digit character. -/
def charsToNatAux : List Char → Nat → Option Nat
  | [], acc => some acc
  | c :: rest, acc =>
    if c.isDigit then charsToNatAux rest (acc * 10 + (c.toNat - 48)) else none

/-- Parse a non-empty decimal char list. -/
def charsToNat (cs : List Char) : Option Nat :=
  match cs with
  | [] => none
  | _ => charsToNatAux cs 0

/-- One dotted-quad octet: decimal, at most 255. -/
def parseOctetChars (cs : List Char) : Option Nat :=
  match charsToNat cs with
  | some n => if n ≤ 255 then some n else none
  | none => none

/-- `net.ParseIP` restricted to IPv4 dotted-quad form, as a 32-bit value. -/
def parseIPv4Chars (cs : List Char) : Option Nat :=
  match (splitChar '.' cs).mapM parseOctetChars with
  | some [a, b, c, d] => some (((a * 256 + b) * 256 + c) * 256 + d)
  | _ => none

/-- `net.ParseIP` on a string (IPv4 dotted-quad). -/
def parseIPv4 (s : String) : Option Nat :=
  parseIPv4Chars s.data

/-- `net.ParseCIDR`: base address and mask length of `"a.b.c.d/n"`. -/
def parseCIDR (s : String) : Option (Nat × Nat) :=
  match splitChar '/' s.data with
  | [ipCs, mCs] =>
    match parseIPv4Chars ipCs, charsToNat mCs with
    | some ip, some m => if m ≤ 32 then some (ip, m) else none
    | _, _ => none
  | _ => none

/-- `ipnet.Contains`: the two addresses agree above the host bits. -/
def maskedEq (m base ip : Nat) : Bool :=
  ip / 2 ^ (32 - m) = base / 2 ^ (32 - m)

/-- `checkIPInSubnet` (networkmanager.go): parse the CIDR and the IP and
test containment; a parse failure is an error. -/
def checkIPInSubnet (subnet ip : String) : Except Err Bool :=
  match parseCIDR subnet with
  | none => .error .invalidAddress
  | some bm =>
    match parseIPv4 ip with
    | none => .error .invalidAddress
    | some ipv => .ok (maskedEq bm.2 bm.1 ipv)

/-! ## Policy parsers (from `networkmanager.go`) -/

/-- `parseAllowConnection`: `"serviceID/port"` or `"serviceID/port/proto"`,
default protocol `tcp`; any other arity is rejected. -/
def parseAllowConnection (c : String) : Except Err (String × String × String) :=
  match splitChar '/' c.data with
  | [sid, port] => .ok (String.mk sid, String.mk port, "tcp")
  | [sid, port, proto] => .ok (String.mk sid, String.mk port, String.mk proto)
  | _ => .error .malformedPolicy

/-- One entry of `parseExposedPorts`: `"port"` or `"port/proto"`. -/
def parseExposedPort (p : String) : Except Err FirewallRule :=
  match splitChar '/' p.data with
  | [port] => .ok { protocol := "tcp", port := String.mk port }
  | [port, proto] => .ok { protocol := String.mk proto, port := String.mk port }
  | _ => .error .malformedPolicy

/-- `parseExposedPorts` (networkmanager.go). -/
def parseExposedPorts (l : List String) : Except Err (List FirewallRule) :=
  l.mapM parseExposedPort

/-- `ruleExists` (networkmanager.go): the instance exposes `(port, protocol)`. -/
def ruleExists (info : InstanceNetworkInfo) (port protocol : String) : Bool :=
  info.rules.any (fun r => r.port = port && protocol = r.protocol)

/-! ## IPAM, modelled from the spec -/

/-- Modelled from the spec: per-provider state of the subnet allocator
(`ipam.go` is not part of the embedded sources).  A provider network owns a
carved subnet (identified by its index in the aggregate) and a list of
textual IPs currently in use; `nextHost` is the allocator's position for the
next fresh host. -/
structure IpamNet where
  subnetIdx : Nat
  nextHost : Nat
  used : List String
deriving DecidableEq, Repr

/-- Modelled from the spec: the subnet allocator's free-list state. -/
structure IpamState where
  nets : List (String × IpamNet)
  nextSubnetIdx : Nat
deriving DecidableEq, Repr

/-- Textual subnet of the `i`-th carved network. -/
def subnetString (i : Nat) : String :=
  "10." ++ toString i ++ ".0.0/24"

/-- Textual `k`-th host of the `i`-th carved network. -/
def hostString (i k : Nat) : String :=
  "10." ++ toString i ++ ".0." ++ toString k

/-- Modelled from the spec: `PrepareSubnet(networkID)`.  If the provider
already has a subnet, return the same subnet and a freshly allocated host IP
within it; otherwise carve a new subnet from the aggregate and return its
first usable host. -/
def prepareSubnet (ipam : IpamState) (nid : String) : String × String × IpamState :=
  match lookupA ipam.nets nid with
  | some net =>
    let ip := hostString net.subnetIdx net.nextHost
    (subnetString net.subnetIdx, ip,
      { ipam with
        nets := updateA ipam.nets nid
          { net with nextHost := net.nextHost + 1, used := ip :: net.used } })
  | none =>
    let ip := hostString ipam.nextSubnetIdx 0
    (subnetString ipam.nextSubnetIdx, ip,
      { nets := ipam.nets ++ [(nid, { subnetIdx := ipam.nextSubnetIdx, nextHost := 1, used := [ip] })],
        nextSubnetIdx := ipam.nextSubnetIdx + 1 })

/-- Modelled from the spec: `ReleaseIP(networkID, ip)` marks the IP free. -/
def releaseIPToSubnet (ipam : IpamState) (nid : String) (ip : String) : IpamState :=
  { ipam with nets := modifyA ipam.nets nid (fun net => { net with used := net.used.erase ip }) }

/-- Modelled from the spec: `ReleaseNetwork(networkID)` releases the whole
subnet and every IP within it. -/
def releaseIPNetPool (ipam : IpamState) (nid : String) : IpamState :=
  { ipam with nets := eraseA ipam.nets nid }

/-- The used-IP list the allocator tracks for one provider network. -/
def usedIPs (ipam : IpamState) (nid : String) : List String :=
  ((lookupA ipam.nets nid).map IpamNet.used).getD []

/-! ## Manager state and environment -/

/-- The in-memory state of `NetworkManager`: `instancesData`,
`providerNetworks`, the IPAM free-lists and the DNS registry's host map. -/
structure ManagerState where
  instancesData : List (String × List (InstanceIdent × InstanceNetworkInfo))
  providerNetworks : List (String × List NetworkParametersStorage)
  ipam : IpamState
  dnsHosts : List (String × List String)
deriving DecidableEq, Repr

/-- The empty manager state produced by `New` over empty persisted data. -/
def emptyManagerState : ManagerState :=
  { instancesData := [], providerNetworks := [], ipam := { nets := [], nextSubnetIdx := 0 },
    dnsHosts := [] }

/-- External collaborators: the configured DNS IP, the VLAN picker and the
success/failure behaviour of the storage and node-manager interfaces.
Storage contents are not part of the embedded state; only whether each call
succeeds is observable in memory. -/
structure Env where
  dnsIP : String
  getVlanID : String → Nat
  addInstanceInfoOk : InstanceNetworkInfo → Bool
  addNetworkInfoOk : NetworkParametersStorage → Bool
  updateNetworkOk : String → Bool

/-- An environment whose external calls all succeed. -/
def okEnv : Env :=
  { dnsIP := "10.10.0.1", getVlanID := fun _ => 1,
    addInstanceInfoOk := fun _ => true, addNetworkInfoOk := fun _ => true,
    updateNetworkOk := fun _ => true }

/-! ## Coordinator: instance-side operations -/

/-- `getNetworkParametersToCache`: scan `instancesData` for the identity and
return its parameters together with the network that holds it. -/
def getNetworkParametersToCache :
    List (String × List (InstanceIdent × InstanceNetworkInfo)) → InstanceIdent →
    Option (AosNetworkParameters × String)
  | [], _ => none
  | (nid, m) :: rest, ident =>
    match lookupA m ident with
    | some info => some (info.networkParameters, nid)
    | none => getNetworkParametersToCache rest ident

/-- `deleteNetworkParametersFromCache`: drop the identity from the given
network's instance map, drop the DNS entry for the IP, release the IP to the
given network's pool.  (Go converts the textual IP with a raw byte cast,
`net.IP(string)`; the cast is modelled as the identity on the text, which
changes no claim settled here.) -/
def deleteNetworkParametersFromCache (st : ManagerState) (networkID : String)
    (ident : InstanceIdent) (ip : String) : ManagerState :=
  { st with
    instancesData := modifyA st.instancesData networkID (fun m => eraseA m ident),
    dnsHosts := eraseA st.dnsHosts ip,
    ipam := releaseIPToSubnet st.ipam networkID ip }

/-- `removeInstanceNetworkParameters`: cache deletion followed by
`storage.RemoveNetworkInstanceInfo`; every caller logs and suppresses the
storage error, so only the state transition is modelled. -/
def removeInstanceNetworkParameters (st : ManagerState) (networkID : String)
    (ident : InstanceIdent) (ip : String) : ManagerState :=
  deleteNetworkParametersFromCache st networkID ident ip

/-- `addNetworkParametersToCache`. -/
def addNetworkParametersToCache (st : ManagerState) (info : InstanceNetworkInfo) :
    ManagerState :=
  let m := (lookupA st.instancesData info.networkParameters.networkID).getD []
  { st with
    instancesData := updateA st.instancesData info.networkParameters.networkID
      (updateA m info.instanceIdent info) }

/-- Modelled from the spec: `dns.addHosts` overwrites the registry entry for
the IP with the supplied hostnames (the hosts-file write and resolver signal
are external I/O and always succeed in the model). -/
def dnsAddHosts (st : ManagerState) (hosts : List String) (ip : String) : ManagerState :=
  { st with dnsHosts := updateA st.dnsHosts ip hosts }

/-- `createNetwork`: allocate `(subnet, ip)` for the network, build the
instance record (parsing `ExposePorts` when non-empty), persist it, and only
then publish it to the cache.  The deferred rollback deletes the cache entry,
the DNS entry for the fresh IP and the IP allocation whenever any step
failed. -/
def createNetwork (env : Env) (st : ManagerState) (ident : InstanceIdent)
    (networkID : String) (params : NetworkParameters) :
    ManagerState × Except Err AosNetworkParameters :=
  let alloc := prepareSubnet st.ipam networkID
  let subnetS := alloc.1
  let ipS := alloc.2.1
  let st1 := { st with ipam := alloc.2.2 }
  let np : AosNetworkParameters :=
    { networkID := networkID, ip := ipS, subnet := subnetS, vlanID := 0,
      dnsServers := [env.dnsIP], firewallRules := [] }
  let rulesRes : Except Err (List FirewallRule) :=
    if params.exposePorts.isEmpty then .ok [] else parseExposedPorts params.exposePorts
  match rulesRes with
  | .error e => (deleteNetworkParametersFromCache st1 networkID ident ipS, .error e)
  | .ok rules =>
    let info : InstanceNetworkInfo :=
      { instanceIdent := ident, networkParameters := np, rules := rules }
    if env.addInstanceInfoOk info then
      (addNetworkParametersToCache st1 info, .ok np)
    else
      (deleteNetworkParametersFromCache st1 networkID ident ipS, .error .storageFailure)

/-! ## Coordinator: firewall synthesis -/

/-- Inner loop of `getInstanceRule` over one network's instances: skip other
services, propagate subnet-parse errors, skip same-subnet targets, and emit
the rule for the first target exposing `(port, protocol)`. -/
def getInstanceRuleInner (sid subnet port protocol ip : String) :
    List (InstanceIdent × InstanceNetworkInfo) → Except Err (Option AosFirewallRule)
  | [] => .ok none
  | (_, info) :: rest =>
    if info.instanceIdent.serviceID ≠ sid then
      getInstanceRuleInner sid subnet port protocol ip rest
    else
      match checkIPInSubnet subnet info.networkParameters.ip with
      | .error e => .error e
      | .ok true => getInstanceRuleInner sid subnet port protocol ip rest
      | .ok false =>
        if ruleExists info port protocol then
          .ok (some { dstIP := info.networkParameters.ip, srcIP := ip,
                      proto := protocol, dstPort := port })
        else
          getInstanceRuleInner sid subnet port protocol ip rest

/-- Outer loop of `getInstanceRule` over every network. -/
def getInstanceRuleOuter (sid subnet port protocol ip : String) :
    List (String × List (InstanceIdent × InstanceNetworkInfo)) →
    Except Err (Option AosFirewallRule)
  | [] => .ok none
  | (_, m) :: rest =>
    match getInstanceRuleInner sid subnet port protocol ip m with
    | .error e => .error e
    | .ok (some r) => .ok (some r)
    | .ok none => getInstanceRuleOuter sid subnet port protocol ip rest

/-- `getInstanceRule`: the rule for the first matching target instance, or
the `errRuleNotFound` sentinel. -/
def getInstanceRule (data : List (String × List (InstanceIdent × InstanceNetworkInfo)))
    (sid subnet port protocol ip : String) : Except Err AosFirewallRule :=
  match getInstanceRuleOuter sid subnet port protocol ip data with
  | .error e => .error e
  | .ok (some r) => .ok r
  | .ok none => .error .ruleNotFound

/-- `prepareFirewallRules`: one (optional) rule per `AllowConnections` entry;
the rule-not-found sentinel is swallowed, every other error aborts. -/
def prepareFirewallRules (data : List (String × List (InstanceIdent × InstanceNetworkInfo)))
    (subnet ip : String) : List String → Except Err (List AosFirewallRule)
  | [] => .ok []
  | c :: rest =>
    match parseAllowConnection c with
    | .error e => .error e
    | .ok spp =>
      match getInstanceRule data spp.1 subnet spp.2.1 spp.2.2 ip with
      | .error e =>
        if e = .ruleNotFound then prepareFirewallRules data subnet ip rest
        else .error e
      | .ok r => (prepareFirewallRules data subnet ip rest).map (fun rs => r :: rs)

/-! ## Coordinator: `PrepareInstanceNetworkParameters` -/

/-- The canonical hostnames autogenerated for an instance on a network. -/
def autoHosts (ident : InstanceIdent) (networkID : String) : List String :=
  [toString ident.instanceNum ++ "." ++ ident.subjectID ++ "." ++ ident.serviceID,
   toString ident.instanceNum ++ "." ++ ident.subjectID ++ "." ++ ident.serviceID ++ "." ++ networkID] ++
  (if ident.instanceNum = 0 then
    [ident.subjectID ++ "." ++ ident.serviceID,
     ident.subjectID ++ "." ++ ident.serviceID ++ "." ++ networkID]
   else [])

/-- `PrepareInstanceNetworkParameters`: expand hosts, reuse or (re)create the
binding, register DNS hosts, and synthesise egress rules.  When the identity
is found under a different network the source removes the old binding passing
the new `networkID` to `removeInstanceNetworkParameters` — this is embedded
verbatim. -/
def prepareInstanceNetworkParameters (env : Env) (st : ManagerState)
    (ident : InstanceIdent) (networkID : String) (params : NetworkParameters) :
    ManagerState × Except Err AosNetworkParameters :=
  let hosts :=
    if ident.serviceID ≠ "" && ident.subjectID ≠ "" then
      params.hosts ++ autoHosts ident networkID
    else params.hosts
  let afterFound : ManagerState → AosNetworkParameters →
      ManagerState × Except Err AosNetworkParameters := fun st1 np =>
    let st2 := dnsAddHosts st1 hosts np.ip
    if params.allowConnections.isEmpty then (st2, .ok np)
    else
      match prepareFirewallRules st2.instancesData np.subnet np.ip params.allowConnections with
      | .error e => (st2, .error e)
      | .ok rules => (st2, .ok { np with firewallRules := rules })
  match getNetworkParametersToCache st.instancesData ident with
  | some npCur =>
    if networkID = npCur.2 then afterFound st npCur.1
    else
      let st1 := removeInstanceNetworkParameters st networkID ident npCur.1.ip
      match createNetwork env st1 ident networkID params with
      | (st2, .error e) => (st2, .error e)
      | (st2, .ok np) => afterFound st2 np
  | none =>
    match createNetwork env st ident networkID params with
    | (st2, .error e) => (st2, .error e)
    | (st2, .ok np) => afterFound st2 np

/-! ## Coordinator: provider-network reconcile -/

/-- Teardown loop of `removeProviderNetworks`: remove every instance of a
network that lost its last binding. -/
def teardownInstances (networkID : String) :
    List (InstanceIdent × InstanceNetworkInfo) → ManagerState → ManagerState
  | [], st => st
  | (ident, info) :: rest, st =>
    teardownInstances networkID rest
      (removeInstanceNetworkParameters st networkID ident info.networkParameters.ip)

/-- One iteration of the `removeProviderNetworks` loop: drop stale rows with
an empty node ID, keep a requested provider with surviving bindings, drop the
current node's binding otherwise, and tear the network down entirely once no
binding is left.  Returns the updated non-map state and the surviving map
entry (if any). -/
def removeNetEntry (providers : List String) (nodeID : String) (st : ManagerState)
    (e : String × List NetworkParametersStorage) :
    ManagerState × List (String × List NetworkParametersStorage) :=
  let valid := e.2.filter (fun i => i.nodeID ≠ "")
  if providers.contains e.1 && !valid.isEmpty then (st, [(e.1, valid)])
  else
    let filtered := valid.filter (fun i => i.nodeID ≠ nodeID)
    if !filtered.isEmpty then (st, [(e.1, filtered)])
    else
      let st1 := teardownInstances e.1 ((lookupA st.instancesData e.1).getD []) st
      ({ st1 with ipam := releaseIPNetPool st1.ipam e.1 }, [])

/-- The `removeProviderNetworks` loop over the provider map. -/
def removeLoop (providers : List String) (nodeID : String) :
    List (String × List NetworkParametersStorage) → ManagerState →
    ManagerState × List (String × List NetworkParametersStorage)
  | [], st => (st, [])
  | e :: rest, st =>
    let p1 := removeNetEntry providers nodeID st e
    let p2 := removeLoop providers nodeID rest p1.1
    (p2.1, p1.2 ++ p2.2)

/-- `removeProviderNetworks` (networkmanager.go). -/
def removeProviderNetworks (providers : List String) (nodeID : String)
    (st : ManagerState) : ManagerState :=
  let p := removeLoop providers nodeID st.providerNetworks st
  { p.1 with providerNetworks := p.2 }

/-- `setupNetworkParameters`: allocate `(subnet, ip)` for the provider,
persist the binding, and only on success append it to the provider map.  On
storage failure the IPAM allocation made by `GetIPSubnet` is not released —
exactly as in the source, which has no rollback here. -/
def setupNetworkParameters (env : Env) (st : ManagerState) (providerID : String)
    (np : NetworkParametersStorage) : ManagerState × Except Err NetworkParametersStorage :=
  let alloc := prepareSubnet st.ipam providerID
  let np1 : NetworkParametersStorage :=
    { np with networkParameters :=
        { np.networkParameters with subnet := alloc.1, ip := alloc.2.1 } }
  let st1 := { st with ipam := alloc.2.2 }
  let pn1 := updateA st1.providerNetworks providerID
    ((lookupA st1.providerNetworks providerID).getD [] ++ [np1])
  if env.addNetworkInfoOk np1 then
    ({ st1 with providerNetworks := pn1 }, .ok np1)
  else (st1, .error .storageFailure)

/-- `createProviderNetwork`: first binding of a provider — pick a VLAN then
set up subnet, persistence and the map entry. -/
def createProviderNetwork (env : Env) (st : ManagerState) (providerID nodeID : String) :
    ManagerState × Except Err AosNetworkParameters :=
  let np : NetworkParametersStorage :=
    { networkParameters :=
        { networkID := providerID, ip := "", subnet := "",
          vlanID := env.getVlanID providerID, dnsServers := [], firewallRules := [] },
      nodeID := nodeID }
  match setupNetworkParameters env st providerID np with
  | (st1, .error e) => (st1, .error e)
  | (st1, .ok np1) => (st1, .ok np1.networkParameters)

/-- `updateProviderNetworkForNode`: a later binding of an existing provider —
copy the existing parameters (the VLAN in particular) and set up subnet,
persistence and the map entry. -/
def updateProviderNetworkForNode (env : Env) (st : ManagerState)
    (providerID nodeID : String) (existingNetwork : AosNetworkParameters) :
    ManagerState × Except Err AosNetworkParameters :=
  let np : NetworkParametersStorage :=
    { networkParameters := existingNetwork, nodeID := nodeID }
  match setupNetworkParameters env st providerID np with
  | (st1, .error e) => (st1, .error e)
  | (st1, .ok np1) => (st1, .ok np1.networkParameters)

/-- The `addProviderNetworks` loop: reuse the node's binding when present,
extend an existing provider preserving its VLAN, create the first binding
otherwise.  (With an entry that is present but empty the source indexes
`networks[0]` out of range; that unreachable case is mapped to an error.) -/
def addLoop (env : Env) (nodeID : String) :
    List String → ManagerState → List AosNetworkParameters →
    ManagerState × Except Err (List AosNetworkParameters)
  | [], st, acc => (st, .ok acc)
  | pid :: rest, st, acc =>
    match lookupA st.providerNetworks pid with
    | some networks =>
      match networks.find? (fun b => b.nodeID = nodeID) with
      | some b => addLoop env nodeID rest st (acc ++ [b.networkParameters])
      | none =>
        match networks with
        | [] => (st, .error .corruptedState)
        | b0 :: _ =>
          match updateProviderNetworkForNode env st pid nodeID b0.networkParameters with
          | (st1, .error e) => (st1, .error e)
          | (st1, .ok np) => addLoop env nodeID rest st1 (acc ++ [np])
    | none =>
      match createProviderNetwork env st pid nodeID with
      | (st1, .error e) => (st1, .error e)
      | (st1, .ok np) => addLoop env nodeID rest st1 (acc ++ [np])

/-- `addProviderNetworks` (networkmanager.go). -/
def addProviderNetworks (env : Env) (st : ManagerState) (providers : List String)
    (nodeID : String) : ManagerState × Except Err (List AosNetworkParameters) :=
  addLoop env nodeID providers st []

/-- `UpdateProviderNetwork`: remove no-longer-named providers for the node,
add the requested ones, then publish to the node manager. -/
def updateProviderNetwork (env : Env) (st : ManagerState) (providers : List String)
    (nodeID : String) : ManagerState × Except Err Unit :=
  let st1 := removeProviderNetworks providers nodeID st
  match addProviderNetworks env st1 providers nodeID with
  | (st2, .error e) => (st2, .error e)
  | (st2, .ok _) =>
    (st2, if env.updateNetworkOk nodeID then .ok () else .error .transportFailure)

/-- A sequence of `UpdateProviderNetwork` calls, each a `(providers, nodeID)`
pair, applied in order (errors are reported to the caller; the state always
advances as in the source). -/
def applyUpdates (env : Env) : List (List String × String) → ManagerState → ManagerState
  | [], st => st
  | c :: rest, st => applyUpdates env rest (updateProviderNetwork env st c.1 c.2).1

/-- All provider bindings across the provider map. -/
def allBindings (st : ManagerState) : List NetworkParametersStorage :=
  st.providerNetworks.foldr (fun e acc => e.2 ++ acc) []

/-! ## Placement engine (launcher node handler) -/

/-- `nodeDevice` (launcher): a shareable device with its allocation count. -/
structure NodeDevice where
  name : String
  sharedCount : Int
  allocatedCount : Int
deriving DecidableEq, Repr

/-- `aostypes.ServiceDevice` (only the name is consulted here). -/
structure ServiceDevice where
  name : String
deriving DecidableEq, Repr

/-- Allocation failure of `allocateDevices`, carrying the device name. -/
inductive AllocErr where
  | cannotAllocate (name : String)
deriving DecidableEq, Repr

/-- Inner loop of `allocateDevices` for one requested device: scan the node's
devices; on a name match with non-zero `sharedCount`, fail if exhausted or
increment; a name match with zero `sharedCount` keeps scanning.  `none`
signals the error return (no mutation for this request element). -/
def allocOne (name : String) : List NodeDevice → Option (List NodeDevice)
  | [] => none
  | d :: rest =>
    if d.name ≠ name then (allocOne name rest).map (fun l => d :: l)
    else if d.sharedCount ≠ 0 then
      if d.allocatedCount = d.sharedCount then none
      else some ({ d with allocatedCount := d.allocatedCount + 1 } :: rest)
    else (allocOne name rest).map (fun l => d :: l)

/-- `allocateDevices` (launcher): allocate each requested device in order; on
failure the devices mutated so far keep their counts, as in the source. -/
def allocateDevices : List NodeDevice → List ServiceDevice →
    List NodeDevice × Option AllocErr
  | devs, [] => (devs, none)
  | devs, sd :: rest =>
    match allocOne sd.name devs with
    | some devs1 => allocateDevices devs1 rest
    | none => (devs, some (.cannotAllocate sd.name))

/-- Per-device test of `nodeHasDesiredDevices`: a name-matching device
satisfies the request when its `sharedCount` is zero or its `allocatedCount`
differs from its `sharedCount`. -/
def desiredDeviceOk (want : String) : List NodeDevice → Bool
  | [] => false
  | d :: rest =>
    if want ≠ d.name then desiredDeviceOk want rest
    else if d.sharedCount = 0 || d.allocatedCount ≠ d.sharedCount then true
    else desiredDeviceOk want rest

/-- `nodeHasDesiredDevices` (launcher). -/
def nodeHasDesiredDevices (devs : List NodeDevice) (desired : List ServiceDevice) : Bool :=
  desired.all (fun sd => desiredDeviceOk sd.name devs)

/-- The subset of a node handler consulted by the filters embedded here.
`runners` is the result of `nodeInfo.GetNodeRunners()`; `none` stands for
the error case, which makes the runners filter skip the node. -/
structure NodeHandler where
  nodeID : String
  runners : Option (List String)
  availableDevices : List NodeDevice
  priority : Nat
deriving DecidableEq, Repr

/-- `getNodesByDevices` (launcher): with no requested devices every node
survives; otherwise keep the nodes passing `nodeHasDesiredDevices`, and an
empty result is an error. -/
def getNodesByDevices (availableNodes : List NodeHandler)
    (desiredDevices : List ServiceDevice) : Except String (List NodeHandler) :=
  if desiredDevices.isEmpty then .ok availableNodes
  else
    let nodes := availableNodes.filter
      (fun n => nodeHasDesiredDevices n.availableDevices desiredDevices)
    if nodes.isEmpty then .error "no available device found" else .ok nodes

/-- `getNodeByRunners` (launcher): for each requested runner (the default
list when none are requested), append every node that supports it — a node
with an empty runner list supports exactly the default runners. -/
def getNodeByRunners (defaultRunners : List String) (allNodes : List NodeHandler)
    (runners : List String) : List NodeHandler :=
  let rs := if runners.isEmpty then defaultRunners else runners
  rs.foldr
    (fun runner acc =>
      allNodes.filter
        (fun node =>
          match node.runners with
          | none => false
          | some nodeRunners =>
            (nodeRunners.isEmpty && defaultRunners.contains runner) ||
              nodeRunners.contains runner) ++ acc)
    []

/-! ## Invariant predicates and concrete scenarios used by the theorems -/

/-- All bindings of one provider entry carry the same VLAN. -/
def sameVlanList (l : List NetworkParametersStorage) : Prop :=
  ∀ b1 ∈ l, ∀ b2 ∈ l, b1.networkParameters.vlanID = b2.networkParameters.vlanID

/-- Structural invariant of the provider map: keys are unique, every binding
records its own key as `NetworkID`, and bindings of one provider share the
VLAN. -/
def pnInvariant (pn : List (String × List NetworkParametersStorage)) : Prop :=
  (pn.map Prod.fst).Nodup ∧
    ∀ e ∈ pn, (∀ b ∈ e.2, b.networkParameters.networkID = e.1) ∧ sameVlanList e.2

/-- Shape of a provider entry after a reconcile for `(providers, nodeID)`:
no stale empty-node rows, non-empty, and no row for `nodeID` unless the
provider was requested. -/
def entryClean (providers : List String) (nodeID : String)
    (e : String × List NetworkParametersStorage) : Prop :=
  (∀ b ∈ e.2, b.nodeID ≠ "") ∧ e.2 ≠ [] ∧
    (providers.contains e.1 = false → ∀ b ∈ e.2, b.nodeID ≠ nodeID)

/-- The provider map holds a binding of `nodeID` for provider `p`. -/
def hasNodeBinding (pn : List (String × List NetworkParametersStorage))
    (nodeID p : String) : Prop :=
  ∃ l, lookupA pn p = some l ∧ ∃ b ∈ l, b.nodeID = nodeID

/-- Full post-reconcile shape: every entry is clean and every requested
provider has a binding for the node. -/
def pnClean (providers : List String) (nodeID : String) (st : ManagerState) : Prop :=
  (∀ e ∈ st.providerNetworks, entryClean providers nodeID e) ∧
    ∀ p ∈ providers, hasNodeBinding st.providerNetworks nodeID p

/-- The identity used in the instance-move scenario. -/
def moveIdent : InstanceIdent := { serviceID := "svc", subjectID := "sub", instanceNum := 0 }

/-- An empty user policy. -/
def emptyPolicy : NetworkParameters := { hosts := [], allowConnections := [], exposePorts := [] }

/-- State after preparing `moveIdent` on `"netX"` from the empty state. -/
def moveState1 : ManagerState :=
  (prepareInstanceNetworkParameters okEnv emptyManagerState moveIdent "netX" emptyPolicy).1

/-- Result of then preparing the same identity on `"netY"`. -/
def moveResult2 : ManagerState × Except Err AosNetworkParameters :=
  prepareInstanceNetworkParameters okEnv moveState1 moveIdent "netY" emptyPolicy

/-- An environment whose `AddNetworkInfo` persistence always fails. -/
def failNetEnv : Env :=
  { okEnv with addNetworkInfoOk := fun _ => false }

/-- An environment whose `AddNetworkInstanceInfo` persistence always fails. -/
def failInstEnv : Env :=
  { okEnv with addInstanceInfoOk := fun _ => false }

/-- Device-counter sanity: `0 ≤ AllocatedCount ≤ SharedCount` for every
device of a node. -/
def validDevices (devs : List NodeDevice) : Bool :=
  devs.all (fun d => 0 ≤ d.allocatedCount && d.allocatedCount ≤ d.sharedCount)

/-- A sequence of `allocateDevices` calls on one node, keeping the device
state each call leaves behind (also after a failed call, as in the source). -/
def applyAllocs (devs : List NodeDevice) (reqs : List (List ServiceDevice)) :
    List NodeDevice :=
  reqs.foldl (fun d r => (allocateDevices d r).1) devs

/-! # Theorems

First the association-list toolkit, then one theorem per claim (with its
witness or counterexample where required). -/

theorem lookupA_none_iff [DecidableEq κ] (l : List (κ × α)) (k : κ) :
    lookupA l k = none ↔ ∀ e ∈ l, e.1 ≠ k := by
  induction l with
  | nil => simp [lookupA]
  | cons e rest ih =>
    by_cases h : e.1 = k <;> simp [lookupA, h, ih]

theorem lookupA_some_mem [DecidableEq κ] {l : List (κ × α)} {k : κ} {v : α}
    (h : lookupA l k = some v) : (k, v) ∈ l := by
  induction l with
  | nil => simp [lookupA] at h
  | cons e rest ih =>
    by_cases he : e.1 = k
    · rw [lookupA, if_pos he] at h
      have hv : e.2 = v := by injection h
      have hkv : e = (k, v) := by
        cases e
        cases he
        cases hv
        rfl
      rw [← hkv]
      exact List.mem_cons_self _ _
    · rw [lookupA, if_neg he] at h
      exact List.mem_cons_of_mem _ (ih h)

theorem lookupA_updateA_self [DecidableEq κ] (l : List (κ × α)) (k : κ) (v : α) :
    lookupA (updateA l k v) k = some v := by
  induction l with
  | nil => simp [updateA, lookupA]
  | cons e rest ih =>
    by_cases h : e.1 = k <;> simp [updateA, lookupA, h, ih]

theorem lookupA_updateA_ne [DecidableEq κ] (l : List (κ × α)) (k q : κ) (v : α)
    (h : q ≠ k) : lookupA (updateA l k v) q = lookupA l q := by
  have hkq : ¬k = q := fun he => h he.symm
  induction l with
  | nil => simp [updateA, lookupA, hkq]
  | cons e rest ih =>
    by_cases he : e.1 = k
    · rw [updateA, if_pos he]
      show (if k = q then some v else lookupA rest q) =
        (if e.1 = q then some e.2 else lookupA rest q)
      rw [if_neg hkq, if_neg (he ▸ hkq)]
    · rw [updateA, if_neg he]
      show (if e.1 = q then some e.2 else lookupA (updateA rest k v) q) =
        (if e.1 = q then some e.2 else lookupA rest q)
      rw [ih]

theorem mem_updateA [DecidableEq κ] {l : List (κ × α)} {k : κ} {v : α}
    {e : κ × α} (h : e ∈ updateA l k v) : e ∈ l ∨ e = (k, v) := by
  induction l with
  | nil =>
    rw [updateA] at h
    rcases List.mem_singleton.mp h with h1
    exact Or.inr h1
  | cons e0 rest ih =>
    by_cases he : e0.1 = k
    · rw [updateA, if_pos he] at h
      rcases List.mem_cons.mp h with h | h
      · exact Or.inr h
      · exact Or.inl (List.mem_cons_of_mem _ h)
    · rw [updateA, if_neg he] at h
      rcases List.mem_cons.mp h with h | h
      · exact Or.inl (h ▸ List.mem_cons_self e0 rest)
      · rcases ih h with h1 | h1
        · exact Or.inl (List.mem_cons_of_mem _ h1)
        · exact Or.inr h1

theorem keys_updateA_of_found [DecidableEq κ] {l : List (κ × α)} {k : κ} {v' : α}
    (h : lookupA l k = some v') (v : α) :
    (updateA l k v).map Prod.fst = l.map Prod.fst := by
  induction l with
  | nil => simp [lookupA] at h
  | cons e rest ih =>
    rw [lookupA] at h
    by_cases he : e.1 = k
    · simp [updateA, he]
    · rw [if_neg he] at h
      simp [updateA, if_neg he, ih h]

theorem updateA_eq_append [DecidableEq κ] {l : List (κ × α)} {k : κ}
    (h : lookupA l k = none) (v : α) : updateA l k v = l ++ [(k, v)] := by
  induction l with
  | nil => simp [updateA]
  | cons e rest ih =>
    rw [lookupA] at h
    by_cases he : e.1 = k
    · simp [he] at h
    · rw [if_neg he] at h
      simp [updateA, if_neg he, ih h]

theorem assoc_nodup_val_eq [DecidableEq κ] {l : List (κ × α)} {k : κ} {v1 v2 : α}
    (hnd : (l.map Prod.fst).Nodup) (h1 : (k, v1) ∈ l) (h2 : (k, v2) ∈ l) : v1 = v2 := by
  induction l with
  | nil => simp at h1
  | cons e rest ih =>
    rw [List.map_cons, List.nodup_cons] at hnd
    rw [List.mem_cons] at h1 h2
    rcases h1 with h1 | h1 <;> rcases h2 with h2 | h2
    · have h12 := h1.trans h2.symm
      rw [Prod.mk.injEq] at h12
      exact h12.2
    · exfalso
      have hk : k ∈ rest.map Prod.fst := List.mem_map_of_mem Prod.fst h2
      exact hnd.1 ((congrArg Prod.fst h1).symm ▸ hk)
    · exfalso
      have hk : k ∈ rest.map Prod.fst := List.mem_map_of_mem Prod.fst h1
      exact hnd.1 ((congrArg Prod.fst h2).symm ▸ hk)
    · exact ih hnd.2 h1 h2

/-! ## C1: instance move -/

/-- C1: in the instance-move scenario (prepare `moveIdent` on `"netX"`, then
on `"netY"`), the code leaves the identity bound under BOTH networks, and the
old `netX` IP stays allocated in `netX`'s pool, because
`PrepareInstanceNetworkParameters` passes the new `networkID` — not
`currentNetworkID` — to `removeInstanceNetworkParameters`; only the returned
parameters carry `NetworkID = "netY"` as the claim states. -/
theorem prepareInstance_move_keeps_old_binding :
    (lookupA ((lookupA moveResult2.1.instancesData "netX").getD []) moveIdent).isSome = true ∧
    (lookupA ((lookupA moveResult2.1.instancesData "netY").getD []) moveIdent).isSome = true ∧
    usedIPs moveState1.ipam "netX" = ["10.0.0.0"] ∧
    usedIPs moveResult2.1.ipam "netX" = ["10.0.0.0"] ∧
    moveResult2.2.map AosNetworkParameters.networkID = .ok "netY" := by
  decide

/-! ## C2: devices filter and SharedCount = 0 -/

/-- C2: a requested device whose only local device has `SharedCount = 0`
passes `nodeHasDesiredDevices` and hence `getNodesByDevices`, while
`allocateDevices` on the very same node fails for that device — refuting the
claim that `SharedCount = 0` never satisfies the filter and exposing the
filter/allocation inconsistency. -/
theorem nodeHasDesiredDevices_sharedZero_eval :
    nodeHasDesiredDevices [{ name := "gpu", sharedCount := 0, allocatedCount := 0 }]
      [{ name := "gpu" }] = true ∧
    getNodesByDevices [⟨"n1", some [], [⟨"gpu", 0, 0⟩], 0⟩] [⟨"gpu"⟩] =
      .ok [⟨"n1", some [], [⟨"gpu", 0, 0⟩], 0⟩] ∧
    allocateDevices [⟨"gpu", 0, 0⟩] [⟨"gpu"⟩] =
      ([⟨"gpu", 0, 0⟩], some (.cannotAllocate "gpu")) := by
  decide

/-! ## C10: runners filter duplicates -/

/-- C10: the runners filter duplicates a node that supports several requested
runners and groups its output by requested runner: with nodes `[A, B]` the
request `["r2", "r1"]` yields `[A, B, A]` (node `A` appears once per
supported requested runner), and with one supported runner each the request
`["r1", "r2"]` yields `[B, A]`, not the input node order. -/
theorem getNodeByRunners_duplicates_eval :
    (getNodeByRunners ["runc"] [⟨"A", some ["r1", "r2"], [], 0⟩, ⟨"B", some ["r2"], [], 0⟩]
        ["r2", "r1"]).map NodeHandler.nodeID = ["A", "B", "A"] ∧
    (getNodeByRunners ["runc"] [⟨"A", some ["r2"], [], 0⟩, ⟨"B", some ["r1"], [], 0⟩]
        ["r1", "r2"]).map NodeHandler.nodeID = ["B", "A"] := by
  decide

/-! ## C4: device allocation invariant -/

theorem allocOne_valid {name : String} {devs devs1 : List NodeDevice}
    (h : allocOne name devs = some devs1) (hv : validDevices devs = true) :
    validDevices devs1 = true := by
  induction devs generalizing devs1 with
  | nil => simp [allocOne] at h
  | cons d rest ih =>
    rw [validDevices, List.all_cons, Bool.and_eq_true] at hv
    by_cases hn : d.name ≠ name
    · rw [allocOne, if_pos hn] at h
      cases hr : allocOne name rest with
      | none => rw [hr] at h; simp at h
      | some l1 =>
        rw [hr] at h
        simp only [Option.map_some', Option.some.injEq] at h
        rw [← h, validDevices, List.all_cons, Bool.and_eq_true]
        exact ⟨hv.1, ih hr hv.2⟩
    · rw [allocOne, if_neg hn] at h
      by_cases hs : d.sharedCount ≠ 0
      · rw [if_pos hs] at h
        by_cases hx : d.allocatedCount = d.sharedCount
        · simp [if_pos hx] at h
        · rw [if_neg hx] at h
          simp only [Option.some.injEq] at h
          rw [← h, validDevices, List.all_cons, Bool.and_eq_true]
          refine ⟨?_, hv.2⟩
          simp only [Bool.and_eq_true, decide_eq_true_eq] at hv ⊢
          omega
      · rw [if_neg hs] at h
        cases hr : allocOne name rest with
        | none => rw [hr] at h; simp at h
        | some l1 =>
          rw [hr] at h
          simp only [Option.map_some', Option.some.injEq] at h
          rw [← h, validDevices, List.all_cons, Bool.and_eq_true]
          exact ⟨hv.1, ih hr hv.2⟩

theorem allocateDevices_valid (reqs : List ServiceDevice) (devs : List NodeDevice)
    (hv : validDevices devs = true) : validDevices (allocateDevices devs reqs).1 = true := by
  induction reqs generalizing devs with
  | nil => simpa [allocateDevices] using hv
  | cons sd rest ih =>
    rw [allocateDevices]
    cases h : allocOne sd.name devs with
    | none => simpa using hv
    | some devs1 => exact ih devs1 (allocOne_valid h hv)

theorem allocOne_exhausted {devs : List NodeDevice} {d : NodeDevice}
    (hnd : (devs.map NodeDevice.name).Nodup) (hmem : d ∈ devs)
    (hsh : d.sharedCount ≠ 0) (hex : d.allocatedCount = d.sharedCount) :
    allocOne d.name devs = none := by
  induction devs with
  | nil => simp at hmem
  | cons d0 rest ih =>
    rw [List.map_cons, List.nodup_cons] at hnd
    rw [List.mem_cons] at hmem
    by_cases he : d0.name ≠ d.name
    · rw [allocOne, if_pos he]
      rcases hmem with hmem | hmem
      · exact absurd (congrArg NodeDevice.name hmem).symm he
      · rw [ih hnd.2 hmem]
        rfl
    · push_neg at he
      rcases hmem with hmem | hmem
      · rw [hmem]
        rw [allocOne, if_neg (fun hh => hh rfl), if_pos (hmem ▸ hsh), if_pos (hmem ▸ hex)]
      · exact absurd (he ▸ List.mem_map_of_mem NodeDevice.name hmem) hnd.1

/-- C4: any sequence of `allocateDevices` calls keeps every device at
`0 ≤ AllocatedCount ≤ SharedCount`, and a request naming a device (unique by
name on the node) whose counter already equals its non-zero `SharedCount`
returns the allocation error and leaves the device state unchanged. -/
theorem allocateDevices_invariant_and_exhausted :
    (∀ reqs devs, validDevices devs = true → validDevices (applyAllocs devs reqs) = true) ∧
    (∀ devs (d : NodeDevice), (devs.map NodeDevice.name).Nodup → d ∈ devs →
      d.sharedCount ≠ 0 → d.allocatedCount = d.sharedCount →
      allocateDevices devs [{ name := d.name }] =
        (devs, some (.cannotAllocate d.name))) := by
  constructor
  · intro reqs devs hv
    induction reqs generalizing devs with
    | nil => simpa [applyAllocs] using hv
    | cons r rest ih =>
      rw [applyAllocs, List.foldl_cons]
      exact ih (allocateDevices devs r).1 (allocateDevices_valid r devs hv)
  · intro devs d hnd hmem hsh hex
    rw [allocateDevices, allocOne_exhausted hnd hmem hsh hex]

/-- Witness for C4 at a concrete node: two allocations of a twice-shareable
device keep the invariant, and a third request on the exhausted device fails
without touching the counters. -/
theorem allocateDevices_invariant_and_exhausted_witness :
    validDevices (applyAllocs [⟨"gpu", 2, 0⟩] [[⟨"gpu"⟩], [⟨"gpu"⟩]]) = true ∧
    allocateDevices [⟨"gpu", 2, 2⟩] [⟨"gpu"⟩] =
      ([⟨"gpu", 2, 2⟩], some (.cannotAllocate "gpu")) := by
  constructor
  · exact allocateDevices_invariant_and_exhausted.1 [[⟨"gpu"⟩], [⟨"gpu"⟩]] [⟨"gpu", 2, 0⟩] (by decide)
  · exact allocateDevices_invariant_and_exhausted.2 [⟨"gpu", 2, 2⟩] ⟨"gpu", 2, 2⟩
      (by decide) (by decide) (by decide) (by decide)

/-! ## C6 and C8: firewall synthesis -/

theorem getInstanceRuleInner_not_in_subnet {sid subnet port protocol ip : String}
    {l : List (InstanceIdent × InstanceNetworkInfo)} {r : AosFirewallRule}
    (h : getInstanceRuleInner sid subnet port protocol ip l = .ok (some r)) :
    checkIPInSubnet subnet r.dstIP = .ok false := by
  induction l with
  | nil => simp [getInstanceRuleInner] at h
  | cons e rest ih =>
    rw [getInstanceRuleInner] at h
    by_cases hs : e.2.instanceIdent.serviceID ≠ sid
    · rw [if_pos hs] at h
      exact ih h
    · rw [if_neg hs] at h
      split at h
      · simp at h
      · exact ih h
      · rename_i heq
        split at h
        · injection h with h1
          injection h1 with h2
          rw [← h2]
          exact heq
        · exact ih h

theorem getInstanceRuleOuter_not_in_subnet {sid subnet port protocol ip : String}
    {data : List (String × List (InstanceIdent × InstanceNetworkInfo))} {r : AosFirewallRule}
    (h : getInstanceRuleOuter sid subnet port protocol ip data = .ok (some r)) :
    checkIPInSubnet subnet r.dstIP = .ok false := by
  induction data with
  | nil => simp [getInstanceRuleOuter] at h
  | cons e rest ih =>
    rw [getInstanceRuleOuter] at h
    split at h
    · simp at h
    · rename_i heq
      injection h with h1
      injection h1 with h2
      exact h2 ▸ getInstanceRuleInner_not_in_subnet heq
    · exact ih h

theorem getInstanceRule_not_in_subnet {sid subnet port protocol ip : String}
    {data : List (String × List (InstanceIdent × InstanceNetworkInfo))} {r : AosFirewallRule}
    (h : getInstanceRule data sid subnet port protocol ip = .ok r) :
    checkIPInSubnet subnet r.dstIP = .ok false := by
  rw [getInstanceRule] at h
  split at h
  · simp at h
  · rename_i heq
    injection h with h1
    exact h1 ▸ getInstanceRuleOuter_not_in_subnet heq
  · simp at h

/-- C6: every egress rule returned by `prepareFirewallRules` has a
destination IP outside the source's own subnet: for any emitted rule the
same-subnet check on its `DstIP` comes out false. -/
theorem prepareFirewallRules_no_same_subnet
    {data : List (String × List (InstanceIdent × InstanceNetworkInfo))}
    {subnet ip : String} {conns : List String} {rules : List AosFirewallRule}
    (h : prepareFirewallRules data subnet ip conns = .ok rules) :
    ∀ r ∈ rules, checkIPInSubnet subnet r.dstIP = .ok false := by
  induction conns generalizing rules with
  | nil =>
    rw [prepareFirewallRules] at h
    injection h with h1
    rw [← h1]
    intro r hr
    simp at hr
  | cons c rest ih =>
    rw [prepareFirewallRules] at h
    split at h
    · simp at h
    · split at h
      · split at h
        · exact ih h
        · simp at h
      · rename_i heq
        cases hrec : prepareFirewallRules data subnet ip rest with
        | error e =>
          rw [hrec] at h
          simp [Except.map] at h
        | ok rs =>
          rw [hrec] at h
          simp only [Except.map, Except.ok.injEq] at h
          intro r hr
          rw [← h, List.mem_cons] at hr
          rcases hr with hr | hr
          · exact hr ▸ getInstanceRule_not_in_subnet heq
          · exact ih hrec r hr

/-- Witness for C6: a concrete synthesis emitting one rule whose destination
lies outside the source subnet. -/
theorem prepareFirewallRules_no_same_subnet_witness :
    checkIPInSubnet "10.0.0.0/24"
      (AosFirewallRule.mk "10.1.0.5" "10.0.0.4" "tcp" "80").dstIP = .ok false := by
  have h : prepareFirewallRules
      [("netB", [(⟨"svc", "sub", 0⟩,
        InstanceNetworkInfo.mk ⟨"svc", "sub", 0⟩
          (AosNetworkParameters.mk "netB" "10.1.0.5" "10.1.0.0/24" 1 [] [])
          [FirewallRule.mk "tcp" "80"])])]
      "10.0.0.0/24" "10.0.0.4" ["svc/80"]
      = .ok [AosFirewallRule.mk "10.1.0.5" "10.0.0.4" "tcp" "80"] := by decide
  exact prepareFirewallRules_no_same_subnet h
    (AosFirewallRule.mk "10.1.0.5" "10.0.0.4" "tcp" "80") (by decide)

theorem parseAllowConnection_error {c : String} {e : Err}
    (h : parseAllowConnection c = .error e) : e = .malformedPolicy := by
  rw [parseAllowConnection] at h
  split at h
  · simp at h
  · simp at h
  · injection h with h1
    exact h1.symm

/-- C8: per `AllowConnections` entry at most one rule is emitted — the one
for the first matching target — an entry whose service has no match
contributes no rule and does not fail the call, and the rule-not-found
sentinel never escapes `prepareFirewallRules`. -/
theorem prepareFirewallRules_sentinel_and_first_match :
    (∀ data subnet ip conns e,
      prepareFirewallRules data subnet ip conns = .error e → e ≠ .ruleNotFound) ∧
    (∀ data subnet ip conns rules,
      prepareFirewallRules data subnet ip conns = .ok rules →
        rules.length ≤ conns.length) ∧
    (∀ data subnet ip c rest spp,
      parseAllowConnection c = .ok spp →
      getInstanceRule data spp.1 subnet spp.2.1 spp.2.2 ip = .error .ruleNotFound →
      prepareFirewallRules data subnet ip (c :: rest) =
        prepareFirewallRules data subnet ip rest) ∧
    (∀ data subnet ip c rest spp r,
      parseAllowConnection c = .ok spp →
      getInstanceRule data spp.1 subnet spp.2.1 spp.2.2 ip = .ok r →
      prepareFirewallRules data subnet ip (c :: rest) =
        (prepareFirewallRules data subnet ip rest).map (fun rs => r :: rs)) := by
  refine ⟨?_, ?_, ?_, ?_⟩
  · intro data subnet ip conns
    induction conns with
    | nil =>
      intro e h
      simp [prepareFirewallRules] at h
    | cons c rest ih =>
      intro e h
      rw [prepareFirewallRules] at h
      split at h
      · rename_i heq
        injection h with h1
        rw [← h1]
        rw [parseAllowConnection_error heq]
        intro hcontra
        exact Err.noConfusion hcontra
      · split at h
        · split at h
          · exact ih e h
          · rename_i hne
            injection h with h1
            exact fun hc => hne (h1.trans hc)
        · cases hrec : prepareFirewallRules data subnet ip rest with
          | error e1 =>
            rw [hrec] at h
            simp only [Except.map] at h
            injection h with h1
            exact h1 ▸ ih e1 hrec
          | ok rs =>
            rw [hrec] at h
            simp [Except.map] at h
  · intro data subnet ip conns
    induction conns with
    | nil =>
      intro rules h
      rw [prepareFirewallRules] at h
      injection h with h1
      rw [← h1]
      exact Nat.le_refl 0
    | cons c rest ih =>
      intro rules h
      rw [prepareFirewallRules] at h
      split at h
      · simp at h
      · split at h
        · split at h
          · exact Nat.le_succ_of_le (ih rules h)
          · simp at h
        · cases hrec : prepareFirewallRules data subnet ip rest with
          | error e1 =>
            rw [hrec] at h
            simp [Except.map] at h
          | ok rs =>
            rw [hrec] at h
            simp only [Except.map, Except.ok.injEq] at h
            rw [← h, List.length_cons, List.length_cons]
            exact Nat.succ_le_succ (ih rs hrec)
  · intro data subnet ip c rest spp hparse hrule
    cases spp with
    | mk sid pp =>
      cases pp with
      | mk port proto => simp [prepareFirewallRules, hparse, hrule]
  · intro data subnet ip c rest spp r hparse hrule
    cases spp with
    | mk sid pp =>
      cases pp with
      | mk port proto => simp [prepareFirewallRules, hparse, hrule]

/-- Witness for C8: a malformed entry yields an error other than the
sentinel; a match-less entry keeps the call successful and contributes no
rule; a matched entry prepends exactly one rule; the rule count never
exceeds the entry count. -/
theorem prepareFirewallRules_sentinel_and_first_match_witness :
    Err.malformedPolicy ≠ Err.ruleNotFound ∧
    ([] : List AosFirewallRule).length ≤ (["svc/80"] : List String).length ∧
    prepareFirewallRules [] "10.0.0.0/24" "10.0.0.4" ["svc/80"] =
      prepareFirewallRules [] "10.0.0.0/24" "10.0.0.4" [] ∧
    prepareFirewallRules
        [("netB", [(⟨"svc", "sub", 0⟩,
          { instanceIdent := ⟨"svc", "sub", 0⟩,
            networkParameters :=
              { networkID := "netB", ip := "10.1.0.5", subnet := "10.1.0.0/24",
                vlanID := 1, dnsServers := [], firewallRules := [] },
            rules := [{ protocol := "tcp", port := "80" }] })])]
        "10.0.0.0/24" "10.0.0.4" ["svc/80"] =
      (prepareFirewallRules
        [("netB", [(⟨"svc", "sub", 0⟩,
          { instanceIdent := ⟨"svc", "sub", 0⟩,
            networkParameters :=
              { networkID := "netB", ip := "10.1.0.5", subnet := "10.1.0.0/24",
                vlanID := 1, dnsServers := [], firewallRules := [] },
            rules := [{ protocol := "tcp", port := "80" }] })])]
        "10.0.0.0/24" "10.0.0.4" []).map
          (fun rs => AosFirewallRule.mk "10.1.0.5" "10.0.0.4" "tcp" "80" :: rs) := by
  refine ⟨?_, ?_, ?_, ?_⟩
  · exact prepareFirewallRules_sentinel_and_first_match.1 [] "1" "1" ["x"]
      Err.malformedPolicy (by decide)
  · exact prepareFirewallRules_sentinel_and_first_match.2.1 [] "10.0.0.0/24" "10.0.0.4"
      ["svc/80"] [] (by decide)
  · exact prepareFirewallRules_sentinel_and_first_match.2.2.1 [] "10.0.0.0/24" "10.0.0.4"
      "svc/80" [] ("svc", "80", "tcp") (by decide) (by decide)
  · exact prepareFirewallRules_sentinel_and_first_match.2.2.2
      [("netB", [(⟨"svc", "sub", 0⟩,
        { instanceIdent := ⟨"svc", "sub", 0⟩,
          networkParameters :=
            { networkID := "netB", ip := "10.1.0.5", subnet := "10.1.0.0/24",
              vlanID := 1, dnsServers := [], firewallRules := [] },
          rules := [{ protocol := "tcp", port := "80" }] })])]
      "10.0.0.0/24" "10.0.0.4" "svc/80" [] ("svc", "80", "tcp")
      (AosFirewallRule.mk "10.1.0.5" "10.0.0.4" "tcp" "80") (by decide) (by decide)

/-! ## C9: repeated prepare under the same network -/

/-- C9: preparing an identity that is already bound under the same network
leaves `instancesData` (and with it the stored `InstanceNetworkInfo` and its
parsed rules) and the IPAM state untouched, and the result does not depend
on the request's `ExposePorts` at all — a malformed value cannot fail a
repeat call. -/
theorem prepareInstance_same_network_frame
    (env : Env) (st : ManagerState) (ident : InstanceIdent) (nid : String)
    (params : NetworkParameters) (np0 : AosNetworkParameters)
    (h : getNetworkParametersToCache st.instancesData ident = some (np0, nid)) :
    ((prepareInstanceNetworkParameters env st ident nid params).1.instancesData
        = st.instancesData ∧
     (prepareInstanceNetworkParameters env st ident nid params).1.ipam = st.ipam) ∧
    ∀ ep1 ep2,
      prepareInstanceNetworkParameters env st ident nid { params with exposePorts := ep1 } =
      prepareInstanceNetworkParameters env st ident nid { params with exposePorts := ep2 } := by
  constructor
  · rw [prepareInstanceNetworkParameters, h]
    simp only [eq_self_iff_true, if_true]
    constructor
    · repeat' split
      all_goals rfl
    · repeat' split
      all_goals rfl
  · intro ep1 ep2
    rw [prepareInstanceNetworkParameters]
    rw [prepareInstanceNetworkParameters]
    rw [h]
    simp only [eq_self_iff_true, if_true]

/-- Witness for C9: repeating the `netX` preparation with a malformed
`ExposePorts` value changes neither `instancesData` nor the IPAM state, and
gives the same result as an empty `ExposePorts`. -/
theorem prepareInstance_same_network_frame_witness :
    ((prepareInstanceNetworkParameters okEnv moveState1 moveIdent "netX"
        { hosts := [], allowConnections := [], exposePorts := ["80/tcp/x"] }).1.instancesData
      = moveState1.instancesData ∧
     (prepareInstanceNetworkParameters okEnv moveState1 moveIdent "netX"
        { hosts := [], allowConnections := [], exposePorts := ["80/tcp/x"] }).1.ipam
      = moveState1.ipam) ∧
    prepareInstanceNetworkParameters okEnv moveState1 moveIdent "netX"
        { hosts := [], allowConnections := [], exposePorts := ["80/tcp/x"] } =
      prepareInstanceNetworkParameters okEnv moveState1 moveIdent "netX"
        { hosts := [], allowConnections := [], exposePorts := [] } := by
  have h0 : getNetworkParametersToCache moveState1.instancesData moveIdent =
      some ({ networkID := "netX", ip := "10.0.0.0", subnet := "10.0.0.0/24",
              vlanID := 0, dnsServers := ["10.10.0.1"], firewallRules := [] }, "netX") := by
    decide
  exact ⟨(prepareInstance_same_network_frame okEnv moveState1 moveIdent "netX"
      { hosts := [], allowConnections := [], exposePorts := ["80/tcp/x"] } _ h0).1,
    (prepareInstance_same_network_frame okEnv moveState1 moveIdent "netX"
      { hosts := [], allowConnections := [], exposePorts := ["80/tcp/x"] } _ h0).2
      ["80/tcp/x"] []⟩

/-! ## C7: rollback on persistence failure -/

theorem modifyA_self_of [DecidableEq κ] {l : List (κ × α)} {k : κ} {f : α → α}
    (h : ∀ v, lookupA l k = some v → f v = v) : modifyA l k f = l := by
  induction l with
  | nil => rfl
  | cons e rest ih =>
    by_cases he : e.1 = k
    · rw [modifyA, if_pos he]
      have hv : f e.2 = e.2 := h e.2 (by rw [lookupA, if_pos he])
      rw [hv]
      cases e
      cases he
      rfl
    · rw [modifyA, if_neg he]
      rw [ih (fun v hv => h v (by rw [lookupA, if_neg he]; exact hv))]

theorem lookupA_modifyA_self [DecidableEq κ] {l : List (κ × α)} {k : κ} {v : α}
    (f : α → α) (h : lookupA l k = some v) :
    lookupA (modifyA l k f) k = some (f v) := by
  induction l with
  | nil => simp [lookupA] at h
  | cons e rest ih =>
    by_cases he : e.1 = k
    · rw [lookupA, if_pos he] at h
      injection h with h1
      rw [modifyA, if_pos he, lookupA, if_pos rfl, h1]
    · rw [lookupA, if_neg he] at h
      rw [modifyA, if_neg he, lookupA, if_neg he]
      exact ih h

theorem lookupA_append_of_none [DecidableEq κ] {l : List (κ × α)} {k : κ}
    (h : lookupA l k = none) (l2 : List (κ × α)) :
    lookupA (l ++ l2) k = lookupA l2 k := by
  induction l with
  | nil => rfl
  | cons e rest ih =>
    by_cases he : e.1 = k
    · rw [lookupA, if_pos he] at h
      exact absurd h (by simp)
    · rw [lookupA, if_neg he] at h
      rw [List.cons_append, lookupA, if_neg he]
      exact ih h

theorem release_after_prepare (ipam : IpamState) (nid : String) :
    usedIPs (releaseIPToSubnet (prepareSubnet ipam nid).2.2 nid (prepareSubnet ipam nid).2.1) nid
      = usedIPs ipam nid := by
  cases hl : lookupA ipam.nets nid with
  | some net =>
    simp only [prepareSubnet, hl, releaseIPToSubnet, usedIPs]
    rw [lookupA_modifyA_self _ (lookupA_updateA_self ipam.nets nid _)]
    simp only [Option.map_some', Option.getD_some, hl]
    exact List.erase_cons_head _ _
  | none =>
    simp only [prepareSubnet, hl, releaseIPToSubnet, usedIPs]
    have h2 : lookupA [(nid, IpamNet.mk ipam.nextSubnetIdx 1 [hostString ipam.nextSubnetIdx 0])] nid
        = some (IpamNet.mk ipam.nextSubnetIdx 1 [hostString ipam.nextSubnetIdx 0]) := by
      rw [lookupA, if_pos rfl]
    have h1 := (lookupA_append_of_none hl
      [(nid, IpamNet.mk ipam.nextSubnetIdx 1 [hostString ipam.nextSubnetIdx 0])]).trans h2
    rw [lookupA_modifyA_self _ h1]
    simp only [Option.map_some', Option.getD_some, Option.map_none', Option.getD_none, hl]
    exact List.erase_cons_head _ _

theorem createNetwork_error_state (env : Env) (st : ManagerState) (ident : InstanceIdent)
    (nid : String) (params : NetworkParameters) (e : Err)
    (h : (createNetwork env st ident nid params).2 = .error e) :
    (createNetwork env st ident nid params).1 =
      deleteNetworkParametersFromCache { st with ipam := (prepareSubnet st.ipam nid).2.2 }
        nid ident (prepareSubnet st.ipam nid).2.1 := by
  simp only [createNetwork] at h ⊢
  split at h
  · rfl
  · split at h
    · simp at h
    · rename_i hstore
      simp only [if_neg hstore]

theorem setup_fail_frame (env : Env) (st : ManagerState) (pid : String)
    (np : NetworkParametersStorage) (e : Err)
    (h : (setupNetworkParameters env st pid np).2 = .error e) :
    (setupNetworkParameters env st pid np).1.providerNetworks = st.providerNetworks ∧
    (setupNetworkParameters env st pid np).1.instancesData = st.instancesData ∧
    (setupNetworkParameters env st pid np).1.ipam = (prepareSubnet st.ipam pid).2.2 := by
  simp only [setupNetworkParameters] at h ⊢
  split at h
  · simp at h
  · rename_i hstore
    simp [if_neg hstore]

theorem delete_rollback (st : ManagerState) (ident : InstanceIdent) (nid : String)
    (hi : ∀ p ∈ (lookupA st.instancesData nid).getD [], p.1 ≠ ident)
    (hd : ∀ d ∈ st.dnsHosts, d.1 ≠ (prepareSubnet st.ipam nid).2.1) :
    (deleteNetworkParametersFromCache { st with ipam := (prepareSubnet st.ipam nid).2.2 }
        nid ident (prepareSubnet st.ipam nid).2.1).instancesData = st.instancesData ∧
    (deleteNetworkParametersFromCache { st with ipam := (prepareSubnet st.ipam nid).2.2 }
        nid ident (prepareSubnet st.ipam nid).2.1).dnsHosts = st.dnsHosts ∧
    usedIPs (deleteNetworkParametersFromCache { st with ipam := (prepareSubnet st.ipam nid).2.2 }
        nid ident (prepareSubnet st.ipam nid).2.1).ipam nid = usedIPs st.ipam nid ∧
    (deleteNetworkParametersFromCache { st with ipam := (prepareSubnet st.ipam nid).2.2 }
        nid ident (prepareSubnet st.ipam nid).2.1).providerNetworks = st.providerNetworks := by
  refine ⟨?_, ?_, ?_, rfl⟩
  · show modifyA st.instancesData nid (fun m => eraseA m ident) = st.instancesData
    refine modifyA_self_of (fun v hv => ?_)
    rw [eraseA, List.filter_eq_self]
    intro p hp
    have hne := hi p (by rw [hv]; exact hp)
    simpa using hne
  · show eraseA st.dnsHosts (prepareSubnet st.ipam nid).2.1 = st.dnsHosts
    rw [eraseA, List.filter_eq_self]
    intro d hdm
    simpa using hd d hdm
  · exact release_after_prepare st.ipam nid

/-- C7 (amended): on a failure inside `createNetwork` the deferred rollback
restores `instancesData`, the DNS map (absent a stale entry for the
candidate IP) and the network's used-IP list, and `providerNetworks` is
untouched; `setupNetworkParameters`, in contrast, leaves `providerNetworks`
and `instancesData` unchanged on persistence failure but keeps the IPAM
allocation made earlier in the same call instead of rolling it back. -/
theorem persistence_failure_rollback :
    (∀ env st ident nid params e,
      (createNetwork env st ident nid params).2 = .error e →
      (∀ p ∈ (lookupA st.instancesData nid).getD [], p.1 ≠ ident) →
      (∀ d ∈ st.dnsHosts, d.1 ≠ (prepareSubnet st.ipam nid).2.1) →
      (createNetwork env st ident nid params).1.instancesData = st.instancesData ∧
      (createNetwork env st ident nid params).1.dnsHosts = st.dnsHosts ∧
      usedIPs (createNetwork env st ident nid params).1.ipam nid = usedIPs st.ipam nid ∧
      (createNetwork env st ident nid params).1.providerNetworks = st.providerNetworks) ∧
    (∀ env st pid np e,
      (setupNetworkParameters env st pid np).2 = .error e →
      (setupNetworkParameters env st pid np).1.providerNetworks = st.providerNetworks ∧
      (setupNetworkParameters env st pid np).1.instancesData = st.instancesData ∧
      (setupNetworkParameters env st pid np).1.ipam = (prepareSubnet st.ipam pid).2.2) := by
  constructor
  · intro env st ident nid params e h hi hd
    rw [createNetwork_error_state env st ident nid params e h]
    exact delete_rollback st ident nid hi hd
  · intro env st pid np e h
    exact setup_fail_frame env st pid np e h

/-- Counterexample to C7 as stated: with failing `AddNetworkInfo`
persistence, `setupNetworkParameters` returns an error but the in-memory
state is NOT rolled back to its pre-call value — the IPAM allocation made
earlier in the call survives. -/
theorem setupNetworkParameters_no_ipam_rollback :
    (setupNetworkParameters failNetEnv emptyManagerState "p"
      { networkParameters := AosNetworkParameters.mk "p" "" "" 1 [] [], nodeID := "n1" }).2
        = .error .storageFailure ∧
    (setupNetworkParameters failNetEnv emptyManagerState "p"
      { networkParameters := AosNetworkParameters.mk "p" "" "" 1 [] [], nodeID := "n1" }).1
        ≠ emptyManagerState ∧
    usedIPs (setupNetworkParameters failNetEnv emptyManagerState "p"
      { networkParameters := AosNetworkParameters.mk "p" "" "" 1 [] [], nodeID := "n1" }).1.ipam "p"
        = ["10.0.0.0"] := by
  decide

/-- Witness for the amended C7 at concrete inputs: a failed `createNetwork`
leaves the empty state empty (the used-IP list of `"p"` included), and a
failed `setupNetworkParameters` keeps `providerNetworks` empty while its
IPAM state is exactly the post-allocation one. -/
theorem persistence_failure_rollback_witness :
    ((createNetwork failInstEnv emptyManagerState moveIdent "p" emptyPolicy).1.instancesData
        = emptyManagerState.instancesData ∧
      (createNetwork failInstEnv emptyManagerState moveIdent "p" emptyPolicy).1.dnsHosts
        = emptyManagerState.dnsHosts ∧
      usedIPs (createNetwork failInstEnv emptyManagerState moveIdent "p" emptyPolicy).1.ipam "p"
        = usedIPs emptyManagerState.ipam "p" ∧
      (createNetwork failInstEnv emptyManagerState moveIdent "p" emptyPolicy).1.providerNetworks
        = emptyManagerState.providerNetworks) ∧
    ((setupNetworkParameters failNetEnv emptyManagerState "p"
        { networkParameters := AosNetworkParameters.mk "p" "" "" 1 [] [],
          nodeID := "n1" }).1.providerNetworks
        = emptyManagerState.providerNetworks ∧
      (setupNetworkParameters failNetEnv emptyManagerState "p"
        { networkParameters := AosNetworkParameters.mk "p" "" "" 1 [] [],
          nodeID := "n1" }).1.instancesData
        = emptyManagerState.instancesData ∧
      (setupNetworkParameters failNetEnv emptyManagerState "p"
        { networkParameters := AosNetworkParameters.mk "p" "" "" 1 [] [],
          nodeID := "n1" }).1.ipam
        = (prepareSubnet emptyManagerState.ipam "p").2.2) := by
  constructor
  · exact persistence_failure_rollback.1 failInstEnv emptyManagerState moveIdent "p"
      emptyPolicy .storageFailure (by decide) (by decide) (by decide)
  · exact persistence_failure_rollback.2 failNetEnv emptyManagerState "p"
      { networkParameters := AosNetworkParameters.mk "p" "" "" 1 [] [], nodeID := "n1" }
      .storageFailure (by decide)

/-! ## C3 and C5: reconcile-loop lemmas -/

theorem removeNetEntry_spec (providers : List String) (nodeID : String)
    (st : ManagerState) (e : String × List NetworkParametersStorage) :
    (removeNetEntry providers nodeID st e).2 = [] ∨
    ∃ l, (removeNetEntry providers nodeID st e).2 = [(e.1, l)] ∧
      (∀ b ∈ l, b ∈ e.2) ∧ l ≠ [] ∧ (∀ b ∈ l, b.nodeID ≠ "") ∧
      (providers.contains e.1 = false → ∀ b ∈ l, b.nodeID ≠ nodeID) := by
  simp only [removeNetEntry]
  split
  · rename_i hcond
    rw [Bool.and_eq_true] at hcond
    right
    refine ⟨e.2.filter (fun i => i.nodeID ≠ ""), rfl, ?_, ?_, ?_, ?_⟩
    · intro b hb
      exact List.mem_of_mem_filter hb
    · intro hnil
      rw [hnil] at hcond
      simp at hcond
    · intro b hb
      simpa using (List.mem_filter.mp hb).2
    · intro hcontain
      rw [hcontain] at hcond
      simp at hcond
  · split
    · rename_i hcond2
      right
      refine ⟨(e.2.filter (fun i => i.nodeID ≠ "")).filter (fun i => i.nodeID ≠ nodeID),
        rfl, ?_, ?_, ?_, ?_⟩
      · intro b hb
        exact List.mem_of_mem_filter (List.mem_of_mem_filter hb)
      · intro hnil
        rw [hnil] at hcond2
        simp at hcond2
      · intro b hb
        simpa using (List.mem_filter.mp (List.mem_of_mem_filter hb)).2
      · intro _ b hb
        simpa using (List.mem_filter.mp hb).2
    · left
      rfl

theorem removeLoop_entry_spec (providers : List String) (nodeID : String) :
    ∀ (entries : List (String × List NetworkParametersStorage)) (st : ManagerState),
    ∀ e' ∈ (removeLoop providers nodeID entries st).2,
      ∃ e ∈ entries, e'.1 = e.1 ∧ (∀ b ∈ e'.2, b ∈ e.2) ∧ e'.2 ≠ [] ∧
        (∀ b ∈ e'.2, b.nodeID ≠ "") ∧
        (providers.contains e'.1 = false → ∀ b ∈ e'.2, b.nodeID ≠ nodeID) := by
  intro entries
  induction entries with
  | nil =>
    intro st e' he'
    simp [removeLoop] at he'
  | cons e rest ih =>
    intro st e' he'
    rw [removeLoop] at he'
    rw [List.mem_append] at he'
    rcases he' with he' | he'
    · rcases removeNetEntry_spec providers nodeID st e with hsp | ⟨l, hsp, hsub, hne, hnn, hnd⟩
      · rw [hsp] at he'
        simp at he'
      · rw [hsp] at he'
        rw [List.mem_singleton] at he'
        refine ⟨e, List.mem_cons_self _ _, ?_⟩
        rw [he']
        exact ⟨rfl, hsub, by simpa using hne, hnn, hnd⟩
    · rcases ih (removeNetEntry providers nodeID st e).1 e' he' with ⟨e0, he0, hrest⟩
      exact ⟨e0, List.mem_cons_of_mem _ he0, hrest⟩

theorem removeLoop_keys_sublist (providers : List String) (nodeID : String) :
    ∀ (entries : List (String × List NetworkParametersStorage)) (st : ManagerState),
    List.Sublist ((removeLoop providers nodeID entries st).2.map Prod.fst)
      (entries.map Prod.fst) := by
  intro entries
  induction entries with
  | nil =>
    intro st
    simp [removeLoop]
  | cons e rest ih =>
    intro st
    simp only [removeLoop]
    rw [List.map_append]
    rcases removeNetEntry_spec providers nodeID st e with hsp | ⟨l, hsp, _⟩
    · rw [hsp]
      rw [List.map_cons]
      exact List.Sublist.trans (by simpa using ih (removeNetEntry providers nodeID st e).1)
        (List.sublist_cons_self _ _)
    · rw [hsp]
      simpa using List.Sublist.cons₂ e.1 (ih (removeNetEntry providers nodeID st e).1)

theorem setup_store_ok (env : Env) (st : ManagerState) (pid : String)
    (np : NetworkParametersStorage) (hstore : ∀ x, env.addNetworkInfoOk x = true) :
    ∃ np1 : NetworkParametersStorage,
      (setupNetworkParameters env st pid np).1.providerNetworks =
        updateA st.providerNetworks pid
          ((lookupA st.providerNetworks pid).getD [] ++ [np1]) ∧
      (setupNetworkParameters env st pid np).2 = .ok np1 ∧
      np1.nodeID = np.nodeID ∧
      np1.networkParameters.networkID = np.networkParameters.networkID ∧
      np1.networkParameters.vlanID = np.networkParameters.vlanID := by
  simp only [setupNetworkParameters, hstore, if_true]
  exact ⟨_, rfl, rfl, rfl, rfl, rfl⟩

theorem setup_pn_cases (env : Env) (st : ManagerState) (pid : String)
    (np : NetworkParametersStorage) :
    (setupNetworkParameters env st pid np).1.providerNetworks = st.providerNetworks ∨
    ∃ np1 : NetworkParametersStorage,
      (setupNetworkParameters env st pid np).1.providerNetworks =
        updateA st.providerNetworks pid
          ((lookupA st.providerNetworks pid).getD [] ++ [np1]) ∧
      np1.nodeID = np.nodeID ∧
      np1.networkParameters.networkID = np.networkParameters.networkID ∧
      np1.networkParameters.vlanID = np.networkParameters.vlanID := by
  simp only [setupNetworkParameters]
  split
  · right
    exact ⟨_, rfl, rfl, rfl, rfl⟩
  · left
    rfl

theorem updateProviderNetworkForNode_state (env : Env) (st : ManagerState)
    (pid nodeID : String) (ex : AosNetworkParameters) :
    (updateProviderNetworkForNode env st pid nodeID ex).1 =
      (setupNetworkParameters env st pid ⟨ex, nodeID⟩).1 := by
  rw [updateProviderNetworkForNode]
  rcases hs : setupNetworkParameters env st pid ⟨ex, nodeID⟩ with ⟨st1, res⟩
  cases res <;> rfl

theorem createProviderNetwork_state (env : Env) (st : ManagerState)
    (pid nodeID : String) :
    (createProviderNetwork env st pid nodeID).1 =
      (setupNetworkParameters env st pid
        ⟨AosNetworkParameters.mk pid "" "" (env.getVlanID pid) [] [], nodeID⟩).1 := by
  rw [createProviderNetwork]
  rcases hs : setupNetworkParameters env st pid
    ⟨AosNetworkParameters.mk pid "" "" (env.getVlanID pid) [] [], nodeID⟩ with ⟨st1, res⟩
  cases res <;> rfl

theorem updateProviderNetworkForNode_of_ok (env : Env) (st : ManagerState)
    (pid nodeID : String) (ex : AosNetworkParameters) (np1 : NetworkParametersStorage)
    (h : (setupNetworkParameters env st pid ⟨ex, nodeID⟩).2 = .ok np1) :
    updateProviderNetworkForNode env st pid nodeID ex =
      ((setupNetworkParameters env st pid ⟨ex, nodeID⟩).1, .ok np1.networkParameters) := by
  rw [updateProviderNetworkForNode]
  rcases hs : setupNetworkParameters env st pid ⟨ex, nodeID⟩ with ⟨st1, res⟩
  rw [hs] at h
  have h2 : res = .ok np1 := h
  cases h2
  rfl

theorem createProviderNetwork_of_ok (env : Env) (st : ManagerState)
    (pid nodeID : String) (np1 : NetworkParametersStorage)
    (h : (setupNetworkParameters env st pid
      ⟨AosNetworkParameters.mk pid "" "" (env.getVlanID pid) [] [], nodeID⟩).2 = .ok np1) :
    createProviderNetwork env st pid nodeID =
      ((setupNetworkParameters env st pid
        ⟨AosNetworkParameters.mk pid "" "" (env.getVlanID pid) [] [], nodeID⟩).1,
       .ok np1.networkParameters) := by
  rw [createProviderNetwork]
  rcases hs : setupNetworkParameters env st pid
    ⟨AosNetworkParameters.mk pid "" "" (env.getVlanID pid) [] [], nodeID⟩ with ⟨st1, res⟩
  rw [hs] at h
  have h2 : res = .ok np1 := h
  cases h2
  rfl

theorem pnInvariant_extend {pn : List (String × List NetworkParametersStorage)}
    {pid : String} {networks : List NetworkParametersStorage} {np1 : NetworkParametersStorage}
    (hl : lookupA pn pid = some networks) (hinv : pnInvariant pn)
    (hid : np1.networkParameters.networkID = pid)
    (hvlan : ∀ b ∈ networks, b.networkParameters.vlanID = np1.networkParameters.vlanID) :
    pnInvariant (updateA pn pid (networks ++ [np1])) := by
  obtain ⟨hnd, hent⟩ := hinv
  constructor
  · rw [keys_updateA_of_found hl]
    exact hnd
  · intro e he
    rcases mem_updateA he with he | he
    · exact hent e he
    · rw [he]
      constructor
      · intro b hb
        rw [List.mem_append] at hb
        rcases hb with hb | hb
        · exact (hent (pid, networks) (lookupA_some_mem hl)).1 b hb
        · rw [List.mem_singleton] at hb
          rw [hb]
          exact hid
      · intro b1 hb1 b2 hb2
        rw [List.mem_append] at hb1 hb2
        rcases hb1 with hb1 | hb1 <;> rcases hb2 with hb2 | hb2
        · exact (hent (pid, networks) (lookupA_some_mem hl)).2 b1 hb1 b2 hb2
        · rw [List.mem_singleton] at hb2
          rw [hb2]
          exact hvlan b1 hb1
        · rw [List.mem_singleton] at hb1
          rw [hb1]
          exact (hvlan b2 hb2).symm
        · rw [List.mem_singleton] at hb1 hb2
          rw [hb1, hb2]

theorem pnInvariant_append_new {pn : List (String × List NetworkParametersStorage)}
    {pid : String} {np1 : NetworkParametersStorage}
    (hl : lookupA pn pid = none) (hinv : pnInvariant pn)
    (hid : np1.networkParameters.networkID = pid) :
    pnInvariant (updateA pn pid ((lookupA pn pid).getD [] ++ [np1])) := by
  obtain ⟨hnd, hent⟩ := hinv
  rw [hl]
  rw [updateA_eq_append hl]
  constructor
  · rw [List.map_append]
    rw [List.nodup_append]
    refine ⟨hnd, by simp, ?_⟩
    intro k hk
    simp only [List.map_cons, List.map_nil, List.mem_singleton]
    intro hk2
    rw [List.mem_map] at hk
    rcases hk with ⟨e, he, hke⟩
    exact ((lookupA_none_iff pn pid).mp hl e he) (by rw [hke, hk2])
  · intro e he
    rw [List.mem_append] at he
    rcases he with he | he
    · exact hent e he
    · rw [List.mem_singleton] at he
      rw [he]
      constructor
      · intro b hb
        simp only [Option.getD_none, List.nil_append, List.mem_singleton] at hb
        rw [hb]
        exact hid
      · intro b1 hb1 b2 hb2
        simp only [Option.getD_none, List.nil_append, List.mem_singleton] at hb1 hb2
        rw [hb1, hb2]
theorem addLoop_pnInv (env : Env) (nodeID : String) :
    ∀ (todo : List String) (st : ManagerState) (acc : List AosNetworkParameters),
    pnInvariant st.providerNetworks →
    pnInvariant (addLoop env nodeID todo st acc).1.providerNetworks := by
  intro todo
  induction todo with
  | nil =>
    intro st acc h
    exact h
  | cons pid rest ih =>
    intro st acc h
    cases hl : lookupA st.providerNetworks pid with
    | some networks =>
      cases hf : networks.find? (fun b => b.nodeID = nodeID) with
      | some b =>
        simp only [addLoop, hl, hf]
        exact ih st _ h
      | none =>
        cases networks with
        | nil =>
          simp only [addLoop, hl, hf]
          exact h
        | cons b0 bs =>
          have hinv1 : pnInvariant (updateProviderNetworkForNode env st pid nodeID
              b0.networkParameters).1.providerNetworks := by
            rw [updateProviderNetworkForNode_state env st pid nodeID b0.networkParameters]
            rcases setup_pn_cases env st pid ⟨b0.networkParameters, nodeID⟩
              with hc | ⟨np1, hc, _, hcid, hcvl⟩
            · rw [hc]
              exact h
            · rw [hc, hl]
              simp only [Option.getD_some]
              refine pnInvariant_extend hl h ?_ ?_
              · rw [hcid]
                exact (h.2 (pid, b0 :: bs) (lookupA_some_mem hl)).1 b0 (List.mem_cons_self _ _)
              · intro bb hbb
                rw [hcvl]
                exact (h.2 (pid, b0 :: bs) (lookupA_some_mem hl)).2 bb hbb b0 (List.mem_cons_self _ _)
          simp only [addLoop, hl, hf]
          split
          · rename_i st1 e heq
            rw [heq] at hinv1
            exact hinv1
          · rename_i st1 np heq
            rw [heq] at hinv1
            exact ih st1 _ hinv1
    | none =>
      have hinv1 : pnInvariant (createProviderNetwork env st pid nodeID).1.providerNetworks := by
        rw [createProviderNetwork_state env st pid nodeID]
        rcases setup_pn_cases env st pid
            ⟨AosNetworkParameters.mk pid "" "" (env.getVlanID pid) [] [], nodeID⟩
          with hc | ⟨np1, hc, _, hcid, _⟩
        · rw [hc]
          exact h
        · rw [hc]
          exact pnInvariant_append_new hl h (by rw [hcid])
      simp only [addLoop, hl]
      split
      · rename_i st1 e heq
        rw [heq] at hinv1
        exact hinv1
      · rename_i st1 np heq
        rw [heq] at hinv1
        exact ih st1 _ hinv1

theorem removeProviderNetworks_pnInv (providers : List String) (nodeID : String)
    (st : ManagerState) (h : pnInvariant st.providerNetworks) :
    pnInvariant (removeProviderNetworks providers nodeID st).providerNetworks := by
  simp only [removeProviderNetworks]
  constructor
  · exact h.1.sublist (removeLoop_keys_sublist providers nodeID st.providerNetworks st)
  · intro e' he'
    rcases removeLoop_entry_spec providers nodeID st.providerNetworks st e' he'
      with ⟨e, he, hkey, hsub, _⟩
    constructor
    · intro b hb
      rw [hkey]
      exact (h.2 e he).1 b (hsub b hb)
    · intro b1 hb1 b2 hb2
      exact (h.2 e he).2 b1 (hsub b1 hb1) b2 (hsub b2 hb2)

theorem updateProviderNetwork_state_eq (env : Env) (st : ManagerState)
    (providers : List String) (nodeID : String) :
    (updateProviderNetwork env st providers nodeID).1 =
      (addLoop env nodeID providers (removeProviderNetworks providers nodeID st) []).1 := by
  simp only [updateProviderNetwork, addProviderNetworks]
  split
  · rename_i st2 e heq
    rw [heq]
  · rename_i st2 nps heq
    rw [heq]

theorem updateProviderNetwork_pnInv (env : Env) (st : ManagerState)
    (providers : List String) (nodeID : String) (h : pnInvariant st.providerNetworks) :
    pnInvariant (updateProviderNetwork env st providers nodeID).1.providerNetworks := by
  rw [updateProviderNetwork_state_eq]
  exact addLoop_pnInv env nodeID providers _ []
    (removeProviderNetworks_pnInv providers nodeID st h)

theorem applyUpdates_pnInv (env : Env) (calls : List (List String × String)) :
    ∀ st : ManagerState, pnInvariant st.providerNetworks →
    pnInvariant (applyUpdates env calls st).providerNetworks := by
  induction calls with
  | nil =>
    intro st h
    exact h
  | cons c rest ih =>
    intro st h
    rw [applyUpdates]
    exact ih _ (updateProviderNetwork_pnInv env st c.1 c.2 h)

theorem mem_foldr_bindings {l : List (String × List NetworkParametersStorage)}
    {b : NetworkParametersStorage} (h : b ∈ l.foldr (fun e acc => e.2 ++ acc) []) :
    ∃ e ∈ l, b ∈ e.2 := by
  induction l with
  | nil => simp at h
  | cons e rest ih =>
    rw [List.foldr_cons, List.mem_append] at h
    rcases h with h | h
    · exact ⟨e, List.mem_cons_self _ _, h⟩
    · rcases ih h with ⟨e0, he0, hb⟩
      exact ⟨e0, List.mem_cons_of_mem _ he0, hb⟩

/-- C3: starting from the empty state, after any sequence of
`UpdateProviderNetwork` calls any two provider bindings that record the same
`NetworkID` carry the same `VlanID` — the VLAN is fixed with the first
binding of a provider and copied to every later binding. -/
theorem vlan_stability (env : Env) (calls : List (List String × String))
    (b1 b2 : NetworkParametersStorage)
    (h1 : b1 ∈ allBindings (applyUpdates env calls emptyManagerState))
    (h2 : b2 ∈ allBindings (applyUpdates env calls emptyManagerState))
    (hid : b1.networkParameters.networkID = b2.networkParameters.networkID) :
    b1.networkParameters.vlanID = b2.networkParameters.vlanID := by
  have hinv : pnInvariant (applyUpdates env calls emptyManagerState).providerNetworks := by
    refine applyUpdates_pnInv env calls emptyManagerState ⟨?_, ?_⟩
    · simp [emptyManagerState]
    · intro e he
      simp [emptyManagerState] at he
  rw [allBindings] at h1 h2
  rcases mem_foldr_bindings h1 with ⟨e1, he1, hb1⟩
  rcases mem_foldr_bindings h2 with ⟨e2, he2, hb2⟩
  have hk1 : b1.networkParameters.networkID = e1.1 := (hinv.2 e1 he1).1 b1 hb1
  have hk2 : b2.networkParameters.networkID = e2.1 := (hinv.2 e2 he2).1 b2 hb2
  have hkeq : e1.1 = e2.1 := by rw [← hk1, ← hk2, hid]
  have hval : e1.2 = e2.2 := by
    refine assoc_nodup_val_eq (k := e1.1) hinv.1 ?_ ?_
    · exact he1
    · rw [hkeq]
      exact he2
  exact (hinv.2 e1 he1).2 b1 hb1 b2 (hval ▸ hb2)

/-- Witness for C3: two reconciles of `"netX"` for nodes `n1` and `n2` leave
two bindings with the same `NetworkID`, and the theorem yields the equality
of their VLANs. -/
theorem vlan_stability_witness :
    (NetworkParametersStorage.mk
      (AosNetworkParameters.mk "netX" "10.0.0.0" "10.0.0.0/24" 1 [] [])
      "n1").networkParameters.vlanID =
    (NetworkParametersStorage.mk
      (AosNetworkParameters.mk "netX" "10.0.0.1" "10.0.0.0/24" 1 [] [])
      "n2").networkParameters.vlanID :=
  vlan_stability okEnv [(["netX"], "n1"), (["netX"], "n2")]
    (NetworkParametersStorage.mk
      (AosNetworkParameters.mk "netX" "10.0.0.0" "10.0.0.0/24" 1 [] []) "n1")
    (NetworkParametersStorage.mk
      (AosNetworkParameters.mk "netX" "10.0.0.1" "10.0.0.0/24" 1 [] []) "n2")
    (by decide) (by decide) (by decide)
theorem removeNetEntry_fixpoint (providers : List String) (nodeID : String)
    (st : ManagerState) (e : String × List NetworkParametersStorage)
    (h : entryClean providers nodeID e) :
    removeNetEntry providers nodeID st e = (st, [e]) := by
  obtain ⟨h1, h2, h3⟩ := h
  have hval : e.2.filter (fun i => i.nodeID ≠ "") = e.2 := by
    rw [List.filter_eq_self]
    intro b hb
    simpa using h1 b hb
  have hne : e.2.isEmpty = false := by
    cases hh : e.2.isEmpty with
    | false => rfl
    | true => exact absurd (List.isEmpty_iff.mp hh) h2
  simp only [removeNetEntry, hval]
  cases hc : providers.contains e.1 with
  | true => rw [if_pos (by rw [hne]; rfl)]
  | false =>
    have hval2 : e.2.filter (fun i => i.nodeID ≠ nodeID) = e.2 := by
      rw [List.filter_eq_self]
      intro b hb
      simpa using h3 hc b hb
    rw [if_neg (by simp)]
    simp only [hval2]
    rw [if_pos (by rw [hne]; rfl)]

theorem removeLoop_fixpoint (providers : List String) (nodeID : String) :
    ∀ (entries : List (String × List NetworkParametersStorage)) (st : ManagerState),
    (∀ e ∈ entries, entryClean providers nodeID e) →
    removeLoop providers nodeID entries st = (st, entries) := by
  intro entries
  induction entries with
  | nil =>
    intro st _
    rfl
  | cons e rest ih =>
    intro st h
    simp only [removeLoop]
    rw [removeNetEntry_fixpoint providers nodeID st e (h e (List.mem_cons_self _ _))]
    rw [ih st (fun e2 he2 => h e2 (List.mem_cons_of_mem _ he2))]
    rfl

theorem removeProviderNetworks_fixpoint (providers : List String) (nodeID : String)
    (st : ManagerState) (h : ∀ e ∈ st.providerNetworks, entryClean providers nodeID e) :
    removeProviderNetworks providers nodeID st = st := by
  simp only [removeProviderNetworks]
  rw [removeLoop_fixpoint providers nodeID st.providerNetworks st h]
theorem addLoop_fixpoint (env : Env) (nodeID : String) :
    ∀ (todo : List String) (st : ManagerState) (acc : List AosNetworkParameters),
    (∀ p ∈ todo, hasNodeBinding st.providerNetworks nodeID p) →
    (addLoop env nodeID todo st acc).1 = st := by
  intro todo
  induction todo with
  | nil =>
    intro st acc _
    rfl
  | cons pid rest ih =>
    intro st acc h
    rcases h pid (List.mem_cons_self _ _) with ⟨l, hl, b, hb, hbid⟩
    have hfs : (l.find? (fun b => b.nodeID = nodeID)).isSome :=
      List.find?_isSome.mpr ⟨b, hb, by simp [hbid]⟩
    rcases Option.isSome_iff_exists.mp hfs with ⟨b1, hf⟩
    simp only [addLoop, hl, hf]
    exact ih st _ (fun p hp => h p (List.mem_cons_of_mem _ hp))

theorem addLoop_establish (env : Env) (nodeID : String) (providers : List String)
    (hnode : nodeID ≠ "") (hstore : ∀ x, env.addNetworkInfoOk x = true) :
    ∀ (todo : List String) (st : ManagerState) (acc : List AosNetworkParameters),
    (∀ p ∈ todo, p ∈ providers) →
    (∀ e ∈ st.providerNetworks, entryClean providers nodeID e) →
    (∀ e ∈ (addLoop env nodeID todo st acc).1.providerNetworks, entryClean providers nodeID e) ∧
    (∀ p ∈ todo, hasNodeBinding (addLoop env nodeID todo st acc).1.providerNetworks nodeID p) ∧
    (∀ q, hasNodeBinding st.providerNetworks nodeID q →
      hasNodeBinding (addLoop env nodeID todo st acc).1.providerNetworks nodeID q) := by
  intro todo
  induction todo with
  | nil =>
    intro st acc _ hclean
    exact ⟨hclean, by simp, fun q hq => hq⟩
  | cons pid rest ih =>
    intro st acc hsub hclean
    cases hl : lookupA st.providerNetworks pid with
    | some networks =>
      cases hf : networks.find? (fun b => b.nodeID = nodeID) with
      | some b =>
        simp only [addLoop, hl, hf]
        have hbmem := List.mem_of_find?_eq_some hf
        have hbid : b.nodeID = nodeID := by simpa using List.find?_some hf
        rcases ih st (acc ++ [b.networkParameters])
          (fun p hp => hsub p (List.mem_cons_of_mem _ hp)) hclean with ⟨c1, c2, c3⟩
        refine ⟨c1, ?_, c3⟩
        intro p hp
        rcases List.mem_cons.mp hp with hp | hp
        · rw [hp]
          exact c3 pid ⟨networks, hl, b, hbmem, hbid⟩
        · exact c2 p hp
      | none =>
        cases networks with
        | nil => exact absurd rfl ((hclean (pid, []) (lookupA_some_mem hl)).2.1)
        | cons b0 bs =>
          rcases setup_store_ok env st pid ⟨b0.networkParameters, nodeID⟩ hstore
            with ⟨np1, hpn, hok, hnid, _, _⟩
          have hupd := updateProviderNetworkForNode_of_ok env st pid nodeID
            b0.networkParameters np1 hok
          have hval : (lookupA st.providerNetworks pid).getD [] = b0 :: bs := by
            rw [hl]
            rfl
          rw [hval] at hpn
          have hpid_prov : providers.contains pid = true :=
            List.elem_eq_true_of_mem (hsub pid (List.mem_cons_self _ _))
          have hclean1 : ∀ e ∈ (setupNetworkParameters env st pid
              ⟨b0.networkParameters, nodeID⟩).1.providerNetworks,
              entryClean providers nodeID e := by
            intro e he
            rw [hpn] at he
            rcases mem_updateA he with he | he
            · exact hclean e he
            · rw [he]
              refine ⟨?_, by simp, ?_⟩
              · intro bb hbb
                rcases List.mem_append.mp hbb with hbb | hbb
                · exact (hclean (pid, b0 :: bs) (lookupA_some_mem hl)).1 bb hbb
                · rw [List.mem_singleton.mp hbb]
                  rw [hnid]
                  exact hnode
              · intro hcontra
                rw [hpid_prov] at hcontra
                exact absurd hcontra (by simp)
          have hbind1 : hasNodeBinding (setupNetworkParameters env st pid
              ⟨b0.networkParameters, nodeID⟩).1.providerNetworks nodeID pid := by
            refine ⟨(b0 :: bs) ++ [np1], ?_, np1, by simp, hnid⟩
            rw [hpn]
            exact lookupA_updateA_self _ _ _
          have hmono1 : ∀ q, hasNodeBinding st.providerNetworks nodeID q →
              hasNodeBinding (setupNetworkParameters env st pid
                ⟨b0.networkParameters, nodeID⟩).1.providerNetworks nodeID q := by
            intro q hq
            rcases hq with ⟨lq, hlq, bq, hbq, hbqid⟩
            by_cases hqp : q = pid
            · rw [hqp] at hlq
              rw [hl] at hlq
              injection hlq with hlq
              refine ⟨(b0 :: bs) ++ [np1], ?_, bq, ?_, hbqid⟩
              · rw [hqp, hpn]
                exact lookupA_updateA_self _ _ _
              · rw [List.mem_append]
                left
                rw [← hlq] at hbq
                exact hbq
            · refine ⟨lq, ?_, bq, hbq, hbqid⟩
              rw [hpn]
              rw [lookupA_updateA_ne _ _ _ _ hqp]
              exact hlq
          simp only [addLoop, hl, hf, hupd]
          rcases ih (setupNetworkParameters env st pid ⟨b0.networkParameters, nodeID⟩).1
            (acc ++ [np1.networkParameters])
            (fun p hp => hsub p (List.mem_cons_of_mem _ hp)) hclean1 with ⟨c1, c2, c3⟩
          refine ⟨c1, ?_, fun q hq => c3 q (hmono1 q hq)⟩
          intro p hp
          rcases List.mem_cons.mp hp with hp | hp
          · rw [hp]
            exact c3 pid hbind1
          · exact c2 p hp
    | none =>
      rcases setup_store_ok env st pid
          ⟨AosNetworkParameters.mk pid "" "" (env.getVlanID pid) [] [], nodeID⟩ hstore
        with ⟨np1, hpn, hok, hnid, _, _⟩
      have hcr := createProviderNetwork_of_ok env st pid nodeID np1 hok
      have hval : (lookupA st.providerNetworks pid).getD [] = [] := by
        rw [hl]
        rfl
      rw [hval] at hpn
      have hpid_prov : providers.contains pid = true :=
        List.elem_eq_true_of_mem (hsub pid (List.mem_cons_self _ _))
      have hclean1 : ∀ e ∈ (setupNetworkParameters env st pid
          ⟨AosNetworkParameters.mk pid "" "" (env.getVlanID pid) [] [],
            nodeID⟩).1.providerNetworks,
          entryClean providers nodeID e := by
        intro e he
        rw [hpn] at he
        rcases mem_updateA he with he | he
        · exact hclean e he
        · rw [he]
          refine ⟨?_, by simp, ?_⟩
          · intro bb hbb
            rw [List.nil_append, List.mem_singleton] at hbb
            rw [hbb]
            rw [hnid]
            exact hnode
          · intro hcontra
            rw [hpid_prov] at hcontra
            exact absurd hcontra (by simp)
      have hbind1 : hasNodeBinding (setupNetworkParameters env st pid
          ⟨AosNetworkParameters.mk pid "" "" (env.getVlanID pid) [] [],
            nodeID⟩).1.providerNetworks nodeID pid := by
        refine ⟨[] ++ [np1], ?_, np1, by simp, hnid⟩
        rw [hpn]
        exact lookupA_updateA_self _ _ _
      have hmono1 : ∀ q, hasNodeBinding st.providerNetworks nodeID q →
          hasNodeBinding (setupNetworkParameters env st pid
            ⟨AosNetworkParameters.mk pid "" "" (env.getVlanID pid) [] [],
              nodeID⟩).1.providerNetworks nodeID q := by
        intro q hq
        rcases hq with ⟨lq, hlq, bq, hbq, hbqid⟩
        by_cases hqp : q = pid
        · rw [hqp, hl] at hlq
          exact absurd hlq (by simp)
        · refine ⟨lq, ?_, bq, hbq, hbqid⟩
          rw [hpn]
          rw [lookupA_updateA_ne _ _ _ _ hqp]
          exact hlq
      simp only [addLoop, hl, hcr]
      rcases ih (setupNetworkParameters env st pid
          ⟨AosNetworkParameters.mk pid "" "" (env.getVlanID pid) [] [], nodeID⟩).1
        (acc ++ [np1.networkParameters])
        (fun p hp => hsub p (List.mem_cons_of_mem _ hp)) hclean1 with ⟨c1, c2, c3⟩
      refine ⟨c1, ?_, fun q hq => c3 q (hmono1 q hq)⟩
      intro p hp
      rcases List.mem_cons.mp hp with hp | hp
      · rw [hp]
        exact c3 pid hbind1
      · exact c2 p hp

/-- C5 (amended): for every state and every `(providers, nodeID)` with a
non-empty node ID, and with persistence succeeding, a second identical
`UpdateProviderNetwork` call leaves `instancesData`, `providerNetworks` and
the IPAM free-lists exactly as the first call left them.  (With an empty
node ID the first call's binding is treated as a stale row and rebuilt, so
idempotence fails — see the counterexample.) -/
theorem updateProviderNetwork_idempotent (env : Env) (st : ManagerState)
    (providers : List String) (nodeID : String)
    (hstore : ∀ x, env.addNetworkInfoOk x = true) (hnode : nodeID ≠ "") :
    (updateProviderNetwork env (updateProviderNetwork env st providers nodeID).1
        providers nodeID).1.instancesData
      = (updateProviderNetwork env st providers nodeID).1.instancesData ∧
    (updateProviderNetwork env (updateProviderNetwork env st providers nodeID).1
        providers nodeID).1.providerNetworks
      = (updateProviderNetwork env st providers nodeID).1.providerNetworks ∧
    (updateProviderNetwork env (updateProviderNetwork env st providers nodeID).1
        providers nodeID).1.ipam
      = (updateProviderNetwork env st providers nodeID).1.ipam := by
  have hclean0 : ∀ e ∈ (removeProviderNetworks providers nodeID st).providerNetworks,
      entryClean providers nodeID e := by
    intro e he
    simp only [removeProviderNetworks] at he
    rcases removeLoop_entry_spec providers nodeID st.providerNetworks st e he
      with ⟨e0, _, _, _, hne, hnn, hnd⟩
    exact ⟨hnn, hne, hnd⟩
  rcases addLoop_establish env nodeID providers hnode hstore providers
    (removeProviderNetworks providers nodeID st) [] (fun p hp => hp) hclean0
    with ⟨c1, c2, _⟩
  have hfull : (updateProviderNetwork env (updateProviderNetwork env st providers nodeID).1
      providers nodeID).1 = (updateProviderNetwork env st providers nodeID).1 := by
    rw [updateProviderNetwork_state_eq env (updateProviderNetwork env st providers nodeID).1
      providers nodeID]
    rw [updateProviderNetwork_state_eq env st providers nodeID]
    rw [removeProviderNetworks_fixpoint providers nodeID _ c1]
    exact addLoop_fixpoint env nodeID providers _ [] c2
  exact ⟨by rw [hfull], by rw [hfull], by rw [hfull]⟩

/-- Counterexample to C5 as stated: with the empty node ID, the binding the
first call creates is dropped as a stale row and recreated by the second
call, so the state after the second call differs from the state after the
first. -/
theorem updateProviderNetwork_not_idempotent_empty_node :
    (updateProviderNetwork okEnv (updateProviderNetwork okEnv emptyManagerState ["p"] "").1
        ["p"] "").1
      ≠ (updateProviderNetwork okEnv emptyManagerState ["p"] "").1 := by
  decide

/-- Witness for the amended C5: reconciling `["netX"]` for node `n1` twice
from the empty state leaves the state of the first call untouched. -/
theorem updateProviderNetwork_idempotent_witness :
    (updateProviderNetwork okEnv (updateProviderNetwork okEnv emptyManagerState
        ["netX"] "n1").1 ["netX"] "n1").1.instancesData
      = (updateProviderNetwork okEnv emptyManagerState ["netX"] "n1").1.instancesData ∧
    (updateProviderNetwork okEnv (updateProviderNetwork okEnv emptyManagerState
        ["netX"] "n1").1 ["netX"] "n1").1.providerNetworks
      = (updateProviderNetwork okEnv emptyManagerState ["netX"] "n1").1.providerNetworks ∧
    (updateProviderNetwork okEnv (updateProviderNetwork okEnv emptyManagerState
        ["netX"] "n1").1 ["netX"] "n1").1.ipam
      = (updateProviderNetwork okEnv emptyManagerState ["netX"] "n1").1.ipam :=
  updateProviderNetwork_idempotent okEnv emptyManagerState ["netX"] "n1"
    (fun _ => rfl) (by decide)
